import Mathlib

/-!
Verification of the physics/collision core of the `neptune` rigid-body engine.

The Rust sources are shallowly embedded: `f64` arithmetic is modelled by
exact real arithmetic (`ℝ`), fallible operations (`unwrap`, `expect`,
`assert!`) return `Option`, and the iterator pipelines are modelled by the
corresponding list operations with Rust's documented semantics
(`Iterator::min_by_key` returns the first minimal element).
Division by zero follows Lean's convention `x / 0 = 0`; where the source can
hit a float division by zero (degenerate normalization) the theorems state
exactly what the embedded definition produces there.
-/

noncomputable section

open scoped Classical

/-- Three-dimensional real vector, mirroring `cgmath`/`nalgebra` `Vector3<f64>`
(`Point3` is identified with its coordinate vector). -/
@[ext]
structure Vec3 where
  x : ℝ
  y : ℝ
  z : ℝ

instance : Zero Vec3 := ⟨⟨0, 0, 0⟩⟩

instance : Add Vec3 := ⟨fun u v => ⟨u.x + v.x, u.y + v.y, u.z + v.z⟩⟩

instance : Neg Vec3 := ⟨fun v => ⟨-v.x, -v.y, -v.z⟩⟩

instance : Sub Vec3 := ⟨fun u v => ⟨u.x - v.x, u.y - v.y, u.z - v.z⟩⟩

instance : SMul ℝ Vec3 := ⟨fun c v => ⟨c * v.x, c * v.y, c * v.z⟩⟩

instance : AddCommGroup Vec3 where
  add_assoc a b c := by ext <;> exact add_assoc _ _ _
  zero_add a := by ext <;> exact zero_add _
  add_zero a := by ext <;> exact add_zero _
  add_comm a b := by ext <;> exact add_comm _ _
  neg_add_cancel a := by ext <;> exact neg_add_cancel _
  nsmul := nsmulRec
  zsmul := zsmulRec
  sub_eq_add_neg a b := by ext <;> exact sub_eq_add_neg _ _

instance : Module ℝ Vec3 where
  one_smul v := by ext <;> exact one_mul _
  mul_smul a b v := by ext <;> exact mul_assoc _ _ _
  smul_zero a := by ext <;> exact mul_zero _
  smul_add a u v := by ext <;> exact mul_add _ _ _
  add_smul a b v := by ext <;> exact add_mul _ _ _
  zero_smul v := by ext <;> exact zero_mul _

/-- `InnerSpace::dot`. -/
def Vec3.dot (u v : Vec3) : ℝ := u.x * v.x + u.y * v.y + u.z * v.z

/-- `Vector3::cross`. -/
def Vec3.cross (u v : Vec3) : Vec3 :=
  ⟨u.y * v.z - u.z * v.y, u.z * v.x - u.x * v.z, u.x * v.y - u.y * v.x⟩

/-- `InnerSpace::magnitude2`, the squared euclidean norm. -/
def Vec3.magnitude2 (v : Vec3) : ℝ := dot v v

/-- `InnerSpace::magnitude`, the euclidean norm. -/
def Vec3.magnitude (v : Vec3) : ℝ := Real.sqrt (magnitude2 v)

/-- `InnerSpace::normalize`: `self * (1 / magnitude)`. -/
def Vec3.normalize (v : Vec3) : Vec3 := (1 / magnitude v) • v

/-- `MetricSpace::distance`: the norm of the difference. -/
def Vec3.dist (p q : Vec3) : ℝ := magnitude (q - p)

/-- Quaternion `s + v` as in `cgmath::Quaternion` (for `nalgebra` quaternions the
scalar part `w` is likewise stored in `s`). -/
structure Quat where
  s : ℝ
  v : Vec3

/-- The identity quaternion `Quaternion::new(1, 0, 0, 0)`. -/
def Quat.one : Quat := ⟨1, 0⟩

/-- `cgmath`'s `Rotation::rotate_vector` for quaternions:
`let tmp = self.v.cross(vec) + self.s * vec; vec + 2 * self.v.cross(tmp)`. -/
def Quat.rotate_vector (q : Quat) (vec : Vec3) : Vec3 :=
  let tmp := q.v.cross vec + q.s • vec
  vec + (2 : ℝ) • q.v.cross tmp

/-- `Quaternion::conjugate`. -/
def Quat.conjugate (q : Quat) : Quat := ⟨q.s, -q.v⟩

/-- `Quaternion::magnitude2 = s*s + |v|²`. -/
def Quat.magnitude2 (q : Quat) : ℝ := q.s * q.s + Vec3.magnitude2 q.v

/-- `cgmath`'s `Quaternion::invert`: `conjugate / magnitude2` (componentwise
division). -/
def Quat.invert (q : Quat) : Quat :=
  ⟨q.s / q.magnitude2, (1 / q.magnitude2) • (-q.v)⟩

/-- Real 3×3 matrix (entry `mij` is row `i`, column `j`), mirroring
`cgmath::Matrix3` / `nalgebra::Matrix3`. -/
structure Matrix3 where
  m11 : ℝ
  m12 : ℝ
  m13 : ℝ
  m21 : ℝ
  m22 : ℝ
  m23 : ℝ
  m31 : ℝ
  m32 : ℝ
  m33 : ℝ

/-- The identity matrix. -/
def Matrix3.id3 : Matrix3 := ⟨1, 0, 0, 0, 1, 0, 0, 0, 1⟩

/-- Matrix–vector product. -/
def Matrix3.mulVec (m : Matrix3) (v : Vec3) : Vec3 :=
  ⟨m.m11 * v.x + m.m12 * v.y + m.m13 * v.z,
   m.m21 * v.x + m.m22 * v.y + m.m23 * v.z,
   m.m31 * v.x + m.m32 * v.y + m.m33 * v.z⟩

/-- Matrix–matrix product. -/
def Matrix3.matMul (p q : Matrix3) : Matrix3 :=
  ⟨p.m11 * q.m11 + p.m12 * q.m21 + p.m13 * q.m31,
   p.m11 * q.m12 + p.m12 * q.m22 + p.m13 * q.m32,
   p.m11 * q.m13 + p.m12 * q.m23 + p.m13 * q.m33,
   p.m21 * q.m11 + p.m22 * q.m21 + p.m23 * q.m31,
   p.m21 * q.m12 + p.m22 * q.m22 + p.m23 * q.m32,
   p.m21 * q.m13 + p.m22 * q.m23 + p.m23 * q.m33,
   p.m31 * q.m11 + p.m32 * q.m21 + p.m33 * q.m31,
   p.m31 * q.m12 + p.m32 * q.m22 + p.m33 * q.m32,
   p.m31 * q.m13 + p.m32 * q.m23 + p.m33 * q.m33⟩

/-- Determinant by first-row expansion, exactly as computed in
`interop::try_3x3_inverse` (and equal to `cgmath`'s determinant). -/
def Matrix3.det (mat : Matrix3) : ℝ :=
  mat.m11 * (mat.m22 * mat.m33 - mat.m32 * mat.m23) -
    mat.m12 * (mat.m21 * mat.m33 - mat.m31 * mat.m23) +
    mat.m13 * (mat.m21 * mat.m32 - mat.m31 * mat.m22)

/-- The `interop::try_3x3_inverse` stop-gap inverse: adjugate over determinant
with an exact zero-determinant check; `Err(())` becomes `none`. -/
def try_3x3_inverse (mat : Matrix3) : Option Matrix3 :=
  let minor_m12_m23 := mat.m22 * mat.m33 - mat.m32 * mat.m23
  let minor_m11_m23 := mat.m21 * mat.m33 - mat.m31 * mat.m23
  let minor_m11_m22 := mat.m21 * mat.m32 - mat.m31 * mat.m22
  let determinant := mat.m11 * minor_m12_m23 - mat.m12 * minor_m11_m23 +
    mat.m13 * minor_m11_m22
  if determinant = 0 then none
  else some
    ⟨minor_m12_m23 / determinant,
     (mat.m13 * mat.m32 - mat.m33 * mat.m12) / determinant,
     (mat.m12 * mat.m23 - mat.m22 * mat.m13) / determinant,
     -minor_m11_m23 / determinant,
     (mat.m11 * mat.m33 - mat.m31 * mat.m13) / determinant,
     (mat.m13 * mat.m21 - mat.m23 * mat.m11) / determinant,
     minor_m11_m22 / determinant,
     (mat.m12 * mat.m31 - mat.m32 * mat.m11) / determinant,
     (mat.m11 * mat.m22 - mat.m21 * mat.m12) / determinant⟩

/-- `cgmath`'s `SquareMatrix::invert` for `Matrix3` (adjugate over determinant,
returning `None` when the determinant vanishes); in exact arithmetic it agrees
with `try_3x3_inverse`. -/
def Matrix3.invert (mat : Matrix3) : Option Matrix3 := try_3x3_inverse mat

/-- `nalgebra`'s `UnitQuaternion::to_rotation_matrix` (standard homogeneous
rotation-matrix form of a unit quaternion `w = s`, `(x, y, z) = v`). -/
def Quat.to_rotation_matrix (q : Quat) : Matrix3 :=
  ⟨1 - 2 * (q.v.y * q.v.y + q.v.z * q.v.z),
   2 * (q.v.x * q.v.y - q.v.z * q.s),
   2 * (q.v.x * q.v.z + q.v.y * q.s),
   2 * (q.v.x * q.v.y + q.v.z * q.s),
   1 - 2 * (q.v.x * q.v.x + q.v.z * q.v.z),
   2 * (q.v.y * q.v.z - q.v.x * q.s),
   2 * (q.v.x * q.v.z - q.v.y * q.s),
   2 * (q.v.y * q.v.z + q.v.x * q.s),
   1 - 2 * (q.v.x * q.v.x + q.v.y * q.v.y)⟩

/-- `geometry::Sphere<f64>`. -/
structure Sphere where
  radius : ℝ
  center : Vec3

/-- `geometry::Cuboid<f64>` (the field is spelled `halfSize` in `shapes.rs` and
`half_size` in `contacts.rs`; the record is the same). -/
structure Cuboid where
  center : Vec3
  half_size : Vec3
  rotation : Quat

/-- `physics::contacts::ContactData`. -/
structure ContactData where
  point : Vec3
  normal : Vec3
  penetration_depth : ℝ

/-- `physics::contacts::contact_sphere_sphere`. -/
def contact_sphere_sphere (sphere1 sphere2 : Sphere) : Option ContactData :=
  let r := sphere2.center - sphere1.center
  let r2 := r.magnitude2
  if r2 ≤ (sphere1.radius + sphere2.radius) ^ 2 then
    let normal := if r2 = 0 then (⟨1, 0, 0⟩ : Vec3) else r.normalize
    let point := sphere2.center + (-sphere2.radius) • normal
    let point2 := sphere1.center + sphere1.radius • normal
    let depth := Vec3.dist point point2
    some ⟨point, normal, depth⟩
  else none

/-- `Cuboid::closest_interior_point` from `geometry/shapes.rs`: clamp the
point's local coordinates to the half extents and map back to world space. -/
def closest_interior_point (c : Cuboid) (point : Vec3) : Vec3 :=
  let local_point := (c.rotation.invert).rotate_vector (point - c.center)
  let x := if local_point.x > c.half_size.x then c.half_size.x
    else if local_point.x < -c.half_size.x then -c.half_size.x else local_point.x
  let y := if local_point.y > c.half_size.y then c.half_size.y
    else if local_point.y < -c.half_size.y then -c.half_size.y else local_point.y
  let z := if local_point.z > c.half_size.z then c.half_size.z
    else if local_point.z < -c.half_size.z then -c.half_size.z else local_point.z
  c.rotation.rotate_vector ⟨x, y, z⟩ + c.center

/-- `physics::contacts::contact_sphere_cuboid`. -/
def contact_sphere_cuboid (sphere : Sphere) (cuboid : Cuboid) : Option ContactData :=
  let contact_point := closest_interior_point cuboid sphere.center
  let r := contact_point - sphere.center
  if r.magnitude2 ≤ sphere.radius ^ 2 then
    let normal := r.normalize
    let depth := (sphere.radius • normal - r).magnitude
    some ⟨contact_point, normal, depth⟩
  else none

/-- `physics::contacts::cuboid_axes`: the cuboid's local coordinate axes
rotated into world space. -/
def cuboid_axes (cuboid : Cuboid) : Vec3 × Vec3 × Vec3 :=
  (cuboid.rotation.rotate_vector ⟨1, 0, 0⟩,
   cuboid.rotation.rotate_vector ⟨0, 1, 0⟩,
   cuboid.rotation.rotate_vector ⟨0, 0, 1⟩)

/-- `physics::contacts::cuboid_projection_onto_axis`. -/
def cuboid_projection_onto_axis (cuboid : Cuboid) (axis : Vec3) : ℝ :=
  let axes := cuboid_axes cuboid
  cuboid.half_size.x * |axes.1.dot axis| +
    cuboid.half_size.y * |axes.2.1.dot axis| +
    cuboid.half_size.z * |axes.2.2.dot axis|

/-- `physics::contacts::cuboid_cuboid_penetration_along_axis`. -/
def cuboid_cuboid_penetration_along_axis (cuboid1 cuboid2 : Cuboid) (axis : Vec3) : ℝ :=
  let projection_1 := cuboid_projection_onto_axis cuboid1 axis
  let projection_2 := cuboid_projection_onto_axis cuboid2 axis
  let distance_along_axis := |axis.dot (cuboid2.center - cuboid1.center)|
  projection_1 + projection_2 - distance_along_axis

/-- The 15-entry candidate-axis array built by `contact_cuboid_cuboid`, in
source order; entry 13 is `b_axes[2].cross(b_axes[1])` exactly as written in
`contacts.rs`. -/
def cuboid_cuboid_candidate_axes (a b : Cuboid) : List Vec3 :=
  let a_axes := cuboid_axes a
  let b_axes := cuboid_axes b
  [a_axes.1, a_axes.2.1, a_axes.2.2,
   b_axes.1, b_axes.2.1, b_axes.2.2,
   a_axes.1.cross b_axes.1,
   a_axes.1.cross b_axes.2.1,
   a_axes.1.cross b_axes.2.2,
   a_axes.2.1.cross b_axes.1,
   a_axes.2.1.cross b_axes.2.1,
   a_axes.2.1.cross b_axes.2.2,
   a_axes.2.2.cross b_axes.1,
   b_axes.2.2.cross b_axes.2.1,
   a_axes.2.2.cross b_axes.2.2]

/-- The filtered, indexed, normalized-penetration pipeline of
`contact_cuboid_cuboid`: keep the original array index of every axis whose
squared magnitude exceeds `0.0001` and pair it with the penetration along the
normalized axis. -/
def cuboid_cuboid_candidate_depths (a b : Cuboid) : List (ℕ × ℝ) :=
  (((cuboid_cuboid_candidate_axes a b).enum.filter
      (fun p => decide ((0.0001 : ℝ) < p.2.magnitude2))).map
    (fun p => (p.1, cuboid_cuboid_penetration_along_axis a b p.2.normalize)))

/-- Rust's `Iterator::min_by_key` on `(index, depth)` pairs ordered by depth:
the first element attaining the minimal depth (`OrderedFloat` total order on
exact reals is the usual order). -/
def minByDepth : List (ℕ × ℝ) → Option (ℕ × ℝ)
  | [] => none
  | p :: rest => some (rest.foldl (fun best q => if q.2 < best.2 then q else best) p)

/-- `physics::contacts::contact_cuboid_cuboid` (separating-axis test). The
`unwrap()` on the minimum is modelled by propagating `none` when every axis is
filtered out (the source would panic there). -/
def contact_cuboid_cuboid (a b : Cuboid) : Option ContactData :=
  match minByDepth (cuboid_cuboid_candidate_depths a b) with
  | none => none
  | some (min_index, min_depth) =>
    if 0 ≤ min_depth then
      let axis := (cuboid_cuboid_candidate_axes a b).getD min_index 0
      let relative_center := b.center - a.center
      let normal := if axis.dot relative_center < 0 then -axis else axis
      if min_index < 3 then
        let b_axes := cuboid_axes b
        let vx := if 0 < normal.dot b_axes.1 then -b.half_size.x else b.half_size.x
        let vy := if 0 < normal.dot b_axes.2.1 then -b.half_size.y else b.half_size.y
        let vz := if 0 < normal.dot b_axes.2.2 then -b.half_size.z else b.half_size.z
        let vertex := b.rotation.rotate_vector ⟨vx, vy, vz⟩ + b.center
        some ⟨vertex, normal, min_depth⟩
      else if min_index < 6 then
        let a_axes := cuboid_axes a
        let vx := if normal.dot a_axes.1 < 0 then -a.half_size.x else a.half_size.x
        let vy := if normal.dot a_axes.2.1 < 0 then -a.half_size.y else a.half_size.y
        let vz := if normal.dot a_axes.2.2 < 0 then -a.half_size.z else a.half_size.z
        let vertex := a.rotation.rotate_vector ⟨vx, vy, vz⟩ + a.center
        some ⟨vertex, normal, min_depth⟩
      else none
    else none

/-- The gravitational constant `G` from `physics_engine.rs`. -/
def G : ℝ := 6.674e-11

/-- Index pairs `(i, j)` with `i < j < n`, in the order of the nested loops
`for i in 0..n { for j in (i+1)..n { ... } }` of `compute_acceleration`. -/
def pairIndices (n : ℕ) : List (ℕ × ℕ) :=
  (List.range n).foldr
    (fun i acc =>
      (((List.range n).filter (fun j => decide (i < j))).map (fun j => (i, j))) ++ acc)
    []

/-- The body of one gravity-pair iteration of
`PhysicsEngine::compute_acceleration`: `a_next[i] += (f/m_i)·r` and
`a_next[j] += -(f/m_j)·r`, with `r = x_j - x_i` unnormalized and
`f = G·m_i·m_j / |r|²` exactly as in the source. -/
def accPairUpdate (m : ℕ → ℝ) (x : ℕ → Vec3) (a : ℕ → Vec3) (i j : ℕ) : ℕ → Vec3 :=
  let r := x j - x i
  let r2 := r.magnitude2
  let f := G * m i * m j / r2
  let a1 := Function.update a i (a i + (f / m i) • r)
  Function.update a1 j (a1 j + (-(f / m j)) • r)

/-- `PhysicsEngine::compute_acceleration`: reset the acceleration buffer to
zero and accumulate the gravity contribution of every index pair `i < j`. -/
def compute_acceleration (n : ℕ) (m : ℕ → ℝ) (x : ℕ → Vec3) : ℕ → Vec3 :=
  (pairIndices n).foldl (fun a p => accPairUpdate m x a p.1 p.2) (fun _ => 0)

/-- `PhysicsEngine::integrate_linear_motion` (velocity Verlet) on the dense
buffers: positions first, then fresh accelerations at the new positions, then
velocities from the mean of old and new accelerations. Returns
`(x, v, a_next)` as left in the buffers. -/
def integrate_linear_motion (n : ℕ) (dt : ℝ) (x v a : ℕ → Vec3) (m : ℕ → ℝ) :
    (ℕ → Vec3) × (ℕ → Vec3) × (ℕ → Vec3) :=
  let x' := fun i => if i < n then x i + dt • v i + (0.5 * dt * dt) • a i else x i
  let a_next := compute_acceleration n m x'
  let v' := fun i => if i < n then v i + (0.5 * dt) • (a i + a_next i) else v i
  (x', v', a_next)

/-- `physics::DynamicBodyState` (the fields touched by collision resolution). -/
structure DynamicBodyState where
  position : Vec3
  velocity : Vec3
  orientation : Quat
  angular_momentum : Vec3

/-- `physics::DynamicRigidBody`; `mass` stands for the source's
`Mass`-wrapper value `rb.mass.value()` (the `Mass` type itself is defined
outside the files under verification). -/
structure DynamicRigidBody where
  state : DynamicBodyState
  mass : ℝ
  inv_inertia_body : Matrix3

/-- `physics::StaticRigidBody`. -/
structure StaticRigidBody where
  position : Vec3
  orientation : Quat

/-- `physics::RigidBody`, a tagged union of static and dynamic bodies. -/
inductive RigidBody where
  | Static : StaticRigidBody → RigidBody
  | Dynamic : DynamicRigidBody → RigidBody

/-- `ncollide::query::Contact<Point3<f64>>` as consumed by the collision
engine: the two witness points, the normal and the penetration depth. -/
structure NContact where
  world1 : Vec3
  world2 : Vec3
  normal : Vec3
  depth : ℝ

/-- `collision_engine::world_inverse_inertia`:
`R · (I_body⁻¹ · R⁻¹)` with `R` the orientation's rotation matrix
(`UnitQuaternion::inverse` is the conjugate). -/
def world_inverse_inertia (local_inertia_inv : Matrix3) (orientation : Quat) : Matrix3 :=
  let body_to_world := orientation.to_rotation_matrix
  let world_to_body := (orientation.conjugate).to_rotation_matrix
  body_to_world.matMul (local_inertia_inv.matMul world_to_body)

/-- One `(rb1, rb2, contact)` iteration of
`CollisionEngine::resolve_interpenetrations`: the four match arms on the
static/dynamic pairing, written back as the updated pair of bodies. -/
def resolve_interpenetration_pair (rb1 rb2 : RigidBody) (contact : NContact) :
    RigidBody × RigidBody :=
  match rb1, rb2 with
  | RigidBody.Dynamic b1, RigidBody.Dynamic b2 =>
    let m1 := b1.mass
    let m2 := b2.mass
    let total_mass := m1 + m2
    let obj1_move_dist := (m2 / total_mass) * contact.depth
    let obj2_move_dist := (m1 / total_mass) * contact.depth
    (RigidBody.Dynamic
       { b1 with state := { b1.state with
           position := b1.state.position - obj1_move_dist • contact.normal } },
     RigidBody.Dynamic
       { b2 with state := { b2.state with
           position := b2.state.position + obj2_move_dist • contact.normal } })
  | RigidBody.Static s, RigidBody.Dynamic b =>
    (RigidBody.Static s,
     RigidBody.Dynamic
       { b with state := { b.state with
           position := b.state.position + contact.depth • contact.normal } })
  | RigidBody.Dynamic b, RigidBody.Static s =>
    (RigidBody.Dynamic
       { b with state := { b.state with
           position := b.state.position - contact.depth • contact.normal } },
     RigidBody.Static s)
  | RigidBody.Static s1, RigidBody.Static s2 =>
    (RigidBody.Static s1, RigidBody.Static s2)

/-- `collision_engine::resolve_dynamic_dynamic_velocity`: impulse-based
velocity resolution with restitution 1. The two `unwrap()`ed inertia
inversions are modelled by the `Option`; `none` is the source's panic. -/
def resolve_dynamic_dynamic_velocity (rb1 rb2 : DynamicRigidBody)
    (contact : NContact) : Option (DynamicRigidBody × DynamicRigidBody) :=
  let restitution : ℝ := 1
  let contact_point := contact.world1
  let orientation1 := rb1.state.orientation
  let orientation2 := rb2.state.orientation
  let v1 := rb1.state.velocity
  let v2 := rb2.state.velocity
  let m1 := rb1.mass
  let m2 := rb2.mass
  let r1 := contact_point - rb1.state.position
  let r2 := contact_point - rb2.state.position
  let i_inv1 := world_inverse_inertia rb1.inv_inertia_body orientation1
  let i_inv2 := world_inverse_inertia rb2.inv_inertia_body orientation2
  let w1 := i_inv1.mulVec rb1.state.angular_momentum
  let w2 := i_inv2.mulVec rb2.state.angular_momentum
  let v_p1 := v1 + w1.cross r1
  let v_p2 := v2 + w2.cross r2
  let n := contact.normal
  let v_r := v_p2 - v_p1
  let v_separating := v_r.dot n
  if v_separating < 0 then
    let j_r :=
      let linear_denominator := 1 / m1 + 1 / m2
      let angular_denominator1 := (i_inv1.mulVec (r1.cross n)).cross r1
      let angular_denominator2 := (i_inv2.mulVec (r2.cross n)).cross r2
      let angular_denominator := (angular_denominator1 + angular_denominator2).dot n
      let numerator := -(1 + restitution) * v_separating
      numerator / (linear_denominator + angular_denominator)
    let v1_post := v1 - (j_r / m1) • n
    let v2_post := v2 + (j_r / m2) • n
    let w1_post := w1 - j_r • i_inv1.mulVec (r1.cross n)
    let w2_post := w2 + j_r • i_inv2.mulVec (r2.cross n)
    match try_3x3_inverse i_inv1, try_3x3_inverse i_inv2 with
    | some inv1, some inv2 =>
      some
        ({ rb1 with state := { rb1.state with
             velocity := v1_post, angular_momentum := inv1.mulVec w1_post } },
         { rb2 with state := { rb2.state with
             velocity := v2_post, angular_momentum := inv2.mulVec w2_post } })
    | _, _ => none
  else some (rb1, rb2)

/-- `physics_component::PhysicsComponent` (the cgmath-based store). -/
structure PhysicsComponent where
  position : Vec3
  velocity : Vec3
  orientation : Quat
  angular_velocity : Vec3
  mass : ℝ
  inertia_body : Matrix3

/-- The per-body record written by
`PhysicsComponentStore::set_component_properties` on success. -/
structure PhysicsEntry where
  position : Vec3
  velocity : Vec3
  orientation : Quat
  angular_momentum : Vec3
  mass : ℝ
  inv_inertia_body : Matrix3
  acceleration : Vec3

/-- `PhysicsComponentStore::set_component_properties`: the
`assert!(mass >= 0.0)` and the `expect`ed inertia inversion become `none`
(abort); on success the stored record is returned (acceleration reset to
zero, angular momentum derived from the inertia tensor and angular
velocity). -/
def set_component_properties (component : PhysicsComponent) : Option PhysicsEntry :=
  if 0 ≤ component.mass then
    match component.inertia_body.invert with
    | some inv_inertia_body =>
      some
        { position := component.position
          velocity := component.velocity
          orientation := component.orientation
          angular_momentum := component.inertia_body.mulVec component.angular_velocity
          mass := component.mass
          inv_inertia_body := inv_inertia_body
          acceleration := 0 }
    | none => none
  else none

/-- The normal chosen by `contact_sphere_sphere` in its overlap branch. -/
def sphere_contact_normal (s1 s2 : Sphere) : Vec3 :=
  if Vec3.magnitude2 (s2.center - s1.center) = 0 then ⟨1, 0, 0⟩
  else Vec3.normalize (s2.center - s1.center)

/-- The candidate-axis list as the specification words it: the 3 face normals
of each box followed by the 9 pairwise cross products `a_k × b_l` in
row-major order. -/
def claimed_sat_axes (a b : Cuboid) : List Vec3 :=
  let a_axes := cuboid_axes a
  let b_axes := cuboid_axes b
  [a_axes.1, a_axes.2.1, a_axes.2.2,
   b_axes.1, b_axes.2.1, b_axes.2.2,
   a_axes.1.cross b_axes.1,
   a_axes.1.cross b_axes.2.1,
   a_axes.1.cross b_axes.2.2,
   a_axes.2.1.cross b_axes.1,
   a_axes.2.1.cross b_axes.2.1,
   a_axes.2.1.cross b_axes.2.2,
   a_axes.2.2.cross b_axes.1,
   a_axes.2.2.cross b_axes.2.1,
   a_axes.2.2.cross b_axes.2.2]

/-- Axis-aligned unit-half-extent cuboid at the origin. -/
def sat_cuboid_a : Cuboid := ⟨0, ⟨1, 1, 1⟩, Quat.one⟩

/-- Unit-half-extent cuboid at `(1/4, 7/4, 1/4)` rotated about the x-axis by
the rational unit quaternion `(3/5, 4/5, 0, 0)`. -/
def sat_cuboid_b : Cuboid := ⟨⟨1/4, 7/4, 1/4⟩, ⟨1, 1, 1⟩, ⟨3/5, ⟨4/5, 0, 0⟩⟩⟩

@[simp] theorem Vec3.zero_x : (0 : Vec3).x = 0 := rfl

@[simp] theorem Vec3.zero_y : (0 : Vec3).y = 0 := rfl

@[simp] theorem Vec3.zero_z : (0 : Vec3).z = 0 := rfl

@[simp] theorem Vec3.add_x (u v : Vec3) : (u + v).x = u.x + v.x := rfl

@[simp] theorem Vec3.add_y (u v : Vec3) : (u + v).y = u.y + v.y := rfl

@[simp] theorem Vec3.add_z (u v : Vec3) : (u + v).z = u.z + v.z := rfl

@[simp] theorem Vec3.neg_x (v : Vec3) : (-v).x = -v.x := rfl

@[simp] theorem Vec3.neg_y (v : Vec3) : (-v).y = -v.y := rfl

@[simp] theorem Vec3.neg_z (v : Vec3) : (-v).z = -v.z := rfl

@[simp] theorem Vec3.sub_x (u v : Vec3) : (u - v).x = u.x - v.x := rfl

@[simp] theorem Vec3.sub_y (u v : Vec3) : (u - v).y = u.y - v.y := rfl

@[simp] theorem Vec3.sub_z (u v : Vec3) : (u - v).z = u.z - v.z := rfl

@[simp] theorem Vec3.smul_x (c : ℝ) (v : Vec3) : (c • v).x = c * v.x := rfl

@[simp] theorem Vec3.smul_y (c : ℝ) (v : Vec3) : (c • v).y = c * v.y := rfl

@[simp] theorem Vec3.smul_z (c : ℝ) (v : Vec3) : (c • v).z = c * v.z := rfl

@[simp] theorem Vec3.mk_x (a b c : ℝ) : (Vec3.mk a b c).x = a := rfl

@[simp] theorem Vec3.mk_y (a b c : ℝ) : (Vec3.mk a b c).y = b := rfl

@[simp] theorem Vec3.mk_z (a b c : ℝ) : (Vec3.mk a b c).z = c := rfl

theorem Vec3.magnitude2_nonneg (v : Vec3) : 0 ≤ magnitude2 v := by
  simp only [magnitude2, dot]
  nlinarith [sq_nonneg v.x, sq_nonneg v.y, sq_nonneg v.z]

theorem Vec3.magnitude_nonneg (v : Vec3) : 0 ≤ magnitude v := Real.sqrt_nonneg _

@[simp] theorem Vec3.magnitude2_neg (v : Vec3) : magnitude2 (-v) = magnitude2 v := by
  simp only [magnitude2, dot, neg_x, neg_y, neg_z]; ring

@[simp] theorem Vec3.magnitude_neg (v : Vec3) : magnitude (-v) = magnitude v := by
  simp [magnitude]

theorem Vec3.magnitude2_eq_zero_iff (v : Vec3) : magnitude2 v = 0 ↔ v = 0 := by
  constructor
  · intro h
    have hx : v.x = 0 ∧ v.y = 0 ∧ v.z = 0 := by
      simp only [magnitude2, dot] at h
      refine ⟨?_, ?_, ?_⟩ <;> nlinarith [sq_nonneg v.x, sq_nonneg v.y, sq_nonneg v.z]
    ext <;> simp [hx.1, hx.2.1, hx.2.2]
  · intro h; simp [h, magnitude2, dot]

theorem Vec3.magnitude_eq_zero_iff (v : Vec3) : magnitude v = 0 ↔ v = 0 := by
  rw [magnitude, Real.sqrt_eq_zero (magnitude2_nonneg v), magnitude2_eq_zero_iff]

theorem Vec3.magnitude_smul (c : ℝ) (v : Vec3) :
    magnitude (c • v) = |c| * magnitude v := by
  have h : magnitude2 (c • v) = c ^ 2 * magnitude2 v := by
    simp only [magnitude2, dot]; simp; ring
  rw [magnitude, h, Real.sqrt_mul (sq_nonneg c), Real.sqrt_sq_eq_abs, magnitude]

theorem Vec3.magnitude_smul_self (v : Vec3) (hv : v ≠ 0) :
    magnitude ((1 / magnitude v) • v) = 1 := by
  have h0 : magnitude v ≠ 0 := fun h => hv ((magnitude_eq_zero_iff v).mp h)
  have h1 : (0 : ℝ) ≤ 1 / magnitude v := by
    have := magnitude_nonneg v
    positivity
  rw [magnitude_smul, abs_of_nonneg h1]
  field_simp

/-- Rotation of the quaternion composed with the rotation of its conjugate is
the identity on vectors, provided the quaternion is unit. -/
theorem Quat.rotate_vector_conjugate (q : Quat) (hq : q.magnitude2 = 1) (vec : Vec3) :
    q.rotate_vector ((q.conjugate).rotate_vector vec) = vec := by
  have h : q.s * q.s + (q.v.x * q.v.x + q.v.y * q.v.y + q.v.z * q.v.z) = 1 := by
    simpa [magnitude2, Vec3.magnitude2, Vec3.dot] using hq
  ext
  · simp only [rotate_vector, conjugate, Vec3.cross, Vec3.add_x, Vec3.add_y, Vec3.add_z,
      Vec3.smul_x, Vec3.smul_y, Vec3.smul_z, Vec3.neg_x, Vec3.neg_y, Vec3.neg_z,
      Vec3.mk_x, Vec3.mk_y, Vec3.mk_z]
    linear_combination (4 * (q.v.y ^ 2 * vec.x + q.v.z ^ 2 * vec.x -
      q.v.x * q.v.y * vec.y - q.v.x * q.v.z * vec.z)) * h
  · simp only [rotate_vector, conjugate, Vec3.cross, Vec3.add_x, Vec3.add_y, Vec3.add_z,
      Vec3.smul_x, Vec3.smul_y, Vec3.smul_z, Vec3.neg_x, Vec3.neg_y, Vec3.neg_z,
      Vec3.mk_x, Vec3.mk_y, Vec3.mk_z]
    linear_combination (4 * (q.v.x ^ 2 * vec.y + q.v.z ^ 2 * vec.y -
      q.v.x * q.v.y * vec.x - q.v.y * q.v.z * vec.z)) * h
  · simp only [rotate_vector, conjugate, Vec3.cross, Vec3.add_x, Vec3.add_y, Vec3.add_z,
      Vec3.smul_x, Vec3.smul_y, Vec3.smul_z, Vec3.neg_x, Vec3.neg_y, Vec3.neg_z,
      Vec3.mk_x, Vec3.mk_y, Vec3.mk_z]
    linear_combination (4 * (q.v.x ^ 2 * vec.z + q.v.y ^ 2 * vec.z -
      q.v.x * q.v.z * vec.x - q.v.y * q.v.z * vec.y)) * h

/-- For a unit quaternion, `invert` coincides with `conjugate`. -/
theorem Quat.invert_of_unit (q : Quat) (hq : q.magnitude2 = 1) :
    q.invert = q.conjugate := by
  simp [invert, conjugate, hq]

@[simp] theorem Matrix3.mulVec_zero (m : Matrix3) : m.mulVec 0 = 0 := by
  simp [mulVec]; rfl

/-- C4: interpenetration resolution displaces a dynamic–dynamic pair by the
opposing mass shares of the depth along the normal, moves the dynamic body of
a static–dynamic pair by the full depth in the penetration-removing direction
of the normal, and leaves every static body entirely unchanged. -/
theorem resolve_interpenetration_pair_spec (b1 b2 : DynamicRigidBody)
    (s : StaticRigidBody) (contact : NContact) :
    (resolve_interpenetration_pair (RigidBody.Dynamic b1) (RigidBody.Dynamic b2) contact =
      (RigidBody.Dynamic
        { b1 with state := { b1.state with
            position := b1.state.position +
              (-((b2.mass / (b1.mass + b2.mass)) * contact.depth)) • contact.normal } },
       RigidBody.Dynamic
        { b2 with state := { b2.state with
            position := b2.state.position +
              ((b1.mass / (b1.mass + b2.mass)) * contact.depth) • contact.normal } })) ∧
    (resolve_interpenetration_pair (RigidBody.Static s) (RigidBody.Dynamic b1) contact =
      (RigidBody.Static s,
       RigidBody.Dynamic
        { b1 with state := { b1.state with
            position := b1.state.position + contact.depth • contact.normal } })) ∧
    (resolve_interpenetration_pair (RigidBody.Dynamic b1) (RigidBody.Static s) contact =
      (RigidBody.Dynamic
        { b1 with state := { b1.state with
            position := b1.state.position + (-contact.depth) • contact.normal } },
       RigidBody.Static s)) := by
  refine ⟨?_, ?_, ?_⟩
  · simp [resolve_interpenetration_pair, sub_eq_add_neg, neg_smul]
  · simp [resolve_interpenetration_pair]
  · simp [resolve_interpenetration_pair, sub_eq_add_neg, neg_smul]

/-- C9 counterexample: a component with mass exactly `0` (and an invertible
identity inertia tensor) is accepted by `set_component_properties`, although
the claim demands an abort for every non-positive mass. -/
theorem set_component_properties_zero_mass_accepted :
    set_component_properties
        { position := 0, velocity := 0, orientation := Quat.one,
          angular_velocity := 0, mass := 0, inertia_body := Matrix3.id3 } ≠ none ∧
    ({ position := 0, velocity := 0, orientation := Quat.one,
       angular_velocity := 0, mass := 0, inertia_body := Matrix3.id3 } :
        PhysicsComponent).mass ≤ 0 := by
  constructor
  · simp only [set_component_properties, Matrix3.invert, try_3x3_inverse, Matrix3.id3]
    norm_num
    exact Option.some_ne_none _
  · exact le_refl 0

/-- C9 amended: registration of a physics component aborts exactly when the
mass is negative (the `assert!` tests `mass >= 0.0`, so mass `0` passes) or
the body-frame inertia tensor has zero determinant; every other (real-valued)
component is accepted. -/
theorem set_component_properties_abort_iff (component : PhysicsComponent) :
    set_component_properties component = none ↔
      component.mass < 0 ∨ component.inertia_body.det = 0 := by
  simp only [set_component_properties, Matrix3.invert, try_3x3_inverse]
  by_cases hm : 0 ≤ component.mass
  · by_cases hd : component.inertia_body.det = 0
    · simp only [Matrix3.det] at hd
      simp [hm, hd, Matrix3.det, not_lt.mpr hm]
    · simp only [Matrix3.det] at hd
      simp [hm, hd, Matrix3.det, not_lt.mpr hm]
  · simp [hm, not_le.mp hm]

/-- C1: the gravity pass accumulates `(G·m_j/|r|²) · r` with the
unnormalized connecting vector `r` (the source's own TODO questions this), so
for two unit masses at distance `2` the first body receives acceleration
`(G/2, 0, 0)` and not the claim's `(G·m_j/|r|²)·(r/|r|) = (G/4, 0, 0)`. -/
theorem compute_acceleration_uses_unnormalized_r :
    compute_acceleration 2 (fun _ => 1)
        (fun i => if i = 0 then (0 : Vec3) else ⟨2, 0, 0⟩) 0 = ⟨G / 2, 0, 0⟩ ∧
    (G * 1 / Vec3.magnitude2 ⟨2, 0, 0⟩) • Vec3.normalize ⟨2, 0, 0⟩ = ⟨G / 4, 0, 0⟩ ∧
    (⟨G / 2, 0, 0⟩ : Vec3) ≠ ⟨G / 4, 0, 0⟩ := by
  have hpair : pairIndices 2 = [(0, 1)] := by decide
  have hmag : Vec3.magnitude2 (⟨2, 0, 0⟩ : Vec3) = 4 := by
    simp [Vec3.magnitude2, Vec3.dot]; norm_num
  refine ⟨?_, ?_, ?_⟩
  · simp only [compute_acceleration, hpair, List.foldl, accPairUpdate]
    simp only [Function.update]
    norm_num
    have h4 : Vec3.magnitude2 ((⟨2, 0, 0⟩ : Vec3) - 0) = 4 := by
      simp [Vec3.magnitude2, Vec3.dot]; norm_num
    ext <;> simp [h4, hmag] <;> ring
  · have hnorm : Vec3.normalize (⟨2, 0, 0⟩ : Vec3) = ⟨1, 0, 0⟩ := by
      have : Vec3.magnitude (⟨2, 0, 0⟩ : Vec3) = 2 := by
        rw [Vec3.magnitude, hmag]
        rw [show (4 : ℝ) = 2 ^ 2 by norm_num, Real.sqrt_sq (by norm_num)]
      ext <;> simp [Vec3.normalize, this] <;> norm_num
    rw [hnorm, hmag]
    ext <;> simp <;> ring
  · intro h
    have hx : G / 2 = G / 4 := congrArg Vec3.x h
    rw [G] at hx
    norm_num at hx

/-- Updating one entry of the acceleration buffer shifts the mass-weighted sum
by the mass-weighted change of that entry (when the index is in range). -/
theorem sum_smul_update (n : ℕ) (m : ℕ → ℝ) (h : ℕ → Vec3) (i : ℕ)
    (hi : i ∈ Finset.range n) (b : Vec3) :
    ∑ k ∈ Finset.range n, m k • Function.update h i b k =
      (∑ k ∈ Finset.range n, m k • h k) + m i • (b - h i) := by
  have hupdate : ∀ k ∈ Finset.range n,
      m k • Function.update h i b k =
        Function.update (fun j => m j • h j) i (m i • b) k := by
    intro k _
    by_cases hk : k = i
    · subst hk; simp
    · simp [Function.update_noteq hk]
  rw [Finset.sum_congr rfl hupdate, Finset.sum_update_of_mem hi]
  rw [← Finset.sum_erase_add _ _ hi, smul_sub, Finset.erase_eq]
  abel

/-- One gravity-pair update leaves the total mass-weighted acceleration (the
momentum rate) unchanged: the two accumulated contributions are `±f·r`. -/
theorem accPairUpdate_sum (n : ℕ) (m : ℕ → ℝ) (x : ℕ → Vec3) (a : ℕ → Vec3)
    (i j : ℕ) (hi : i < n) (hj : j < n) (hij : i ≠ j) :
    ∑ k ∈ Finset.range n, m k • accPairUpdate m x a i j k =
      ∑ k ∈ Finset.range n, m k • a k := by
  have hmem_i : i ∈ Finset.range n := Finset.mem_range.mpr hi
  have hmem_j : j ∈ Finset.range n := Finset.mem_range.mpr hj
  simp only [accPairUpdate]
  set r := x j - x i with hr
  set f := G * m i * m j / Vec3.magnitude2 r with hf
  rw [sum_smul_update n m _ j hmem_j, sum_smul_update n m a i hmem_i]
  have hji : Function.update a i (a i + (f / m i) • r) j = a j :=
    Function.update_noteq (fun h => hij h.symm) _ _
  rw [hji]
  have hfi : m i • ((f / m i) • r) = f • r := by
    rcases eq_or_ne (m i) 0 with hmi | hmi
    · have hf0 : f = 0 := by rw [hf, hmi]; ring_nf
      simp [hmi, hf0]
    · rw [smul_smul, mul_div_cancel₀ _ hmi]
  have hfj : m j • ((-(f / m j)) • r) = (-f) • r := by
    rcases eq_or_ne (m j) 0 with hmj | hmj
    · have hf0 : f = 0 := by rw [hf, hmj]; ring_nf
      simp [hmj, hf0]
    · rw [smul_smul, mul_neg, mul_div_cancel₀ _ hmj]
  have h1 : a i + (f / m i) • r - a i = (f / m i) • r := by abel
  have h2 : a j + (-(f / m j)) • r - a j = (-(f / m j)) • r := by abel
  rw [h1, h2, hfi, hfj, neg_smul]
  abel

/-- Folding gravity-pair updates over any list of in-range, distinct index
pairs preserves the mass-weighted acceleration sum. -/
theorem foldl_accPairUpdate_sum (n : ℕ) (m : ℕ → ℝ) (x : ℕ → Vec3)
    (ps : List (ℕ × ℕ)) (hps : ∀ p ∈ ps, p.1 < n ∧ p.2 < n ∧ p.1 ≠ p.2)
    (a : ℕ → Vec3) :
    ∑ k ∈ Finset.range n,
        m k • (ps.foldl (fun acc p => accPairUpdate m x acc p.1 p.2) a) k =
      ∑ k ∈ Finset.range n, m k • a k := by
  induction ps generalizing a with
  | nil => simp
  | cons p ps ih =>
    have hp := hps p (List.mem_cons_self p ps)
    have hrest : ∀ q ∈ ps, q.1 < n ∧ q.2 < n ∧ q.1 ≠ q.2 := fun q hq =>
      hps q (List.mem_cons_of_mem p hq)
    simp only [List.foldl_cons]
    rw [ih hrest, accPairUpdate_sum n m x a p.1 p.2 hp.1 hp.2.1 hp.2.2]

/-- Every pair produced by `pairIndices n` satisfies `i < j < n`. -/
theorem pairIndices_mem (n : ℕ) :
    ∀ p ∈ pairIndices n, p.1 < n ∧ p.2 < n ∧ p.1 ≠ p.2 := by
  intro p hp
  rw [pairIndices] at hp
  have key : ∀ l : List ℕ, p ∈ l.foldr
      (fun i acc =>
        (((List.range n).filter (fun j => decide (i < j))).map (fun j => (i, j))) ++ acc)
      [] → ∃ i, p ∈ ((List.range n).filter (fun j => decide (i < j))).map (fun j => (i, j)) := by
    intro l hl
    induction l with
    | nil => simp at hl
    | cons i l ih =>
      simp only [List.foldr_cons, List.mem_append] at hl
      rcases hl with hl | hl
      · exact ⟨i, hl⟩
      · exact ih hl
  obtain ⟨i, hi⟩ := key _ hp
  simp only [List.mem_map, List.mem_filter, List.mem_range] at hi
  obtain ⟨j, ⟨hjn, hij⟩, rfl⟩ := hi
  have hlt : i < j := of_decide_eq_true hij
  exact ⟨lt_trans hlt hjn, hjn, Nat.ne_of_lt hlt⟩

/-- The freshly computed accelerations always have vanishing mass-weighted
sum: the pairwise gravity contributions are antisymmetric. -/
theorem compute_acceleration_sum (n : ℕ) (m : ℕ → ℝ) (x : ℕ → Vec3) :
    ∑ k ∈ Finset.range n, m k • compute_acceleration n m x k = 0 := by
  rw [compute_acceleration, foldl_accPairUpdate_sum n m x _ (pairIndices_mem n)]
  simp

/-- C7: with contact-free dynamic bodies, any `dt ≥ 0` and stored
accelerations of vanishing mass-weighted sum, one linear velocity-Verlet step
preserves the total linear momentum exactly, and the recomputed
accelerations again have vanishing mass-weighted sum. -/
theorem integrate_linear_motion_momentum (n : ℕ) (dt : ℝ) (x v a : ℕ → Vec3)
    (m : ℕ → ℝ) (hdt : 0 ≤ dt)
    (ha : ∑ i ∈ Finset.range n, m i • a i = 0) :
    (∑ i ∈ Finset.range n, m i • (integrate_linear_motion n dt x v a m).2.1 i =
      ∑ i ∈ Finset.range n, m i • v i) ∧
    (∑ i ∈ Finset.range n, m i • (integrate_linear_motion n dt x v a m).2.2 i = 0) := by
  simp only [integrate_linear_motion]
  set x' := fun i => if i < n then x i + dt • v i + (0.5 * dt * dt) • a i else x i
  have hnext := compute_acceleration_sum n m x'
  refine ⟨?_, hnext⟩
  have hcongr : ∀ i ∈ Finset.range n,
      m i • (if i < n then v i + (0.5 * dt) • (a i + compute_acceleration n m x' i)
        else v i) =
        m i • v i + (0.5 * dt) • (m i • a i) +
          (0.5 * dt) • (m i • compute_acceleration n m x' i) := by
    intro i hi
    rw [if_pos (Finset.mem_range.mp hi)]
    simp only [smul_add]
    rw [smul_comm (m i) (0.5 * dt) (a i),
      smul_comm (m i) (0.5 * dt) (compute_acceleration n m x' i)]
    abel
  rw [Finset.sum_congr rfl hcongr]
  rw [Finset.sum_add_distrib, Finset.sum_add_distrib, ← Finset.smul_sum, ← Finset.smul_sum]
  rw [ha, hnext]
  simp

/-- C7 witness: two unit-mass bodies, unit time step, zero stored
accelerations. -/
theorem integrate_linear_motion_momentum_witness :
    (0 : ℝ) ≤ 1 ∧
    (∑ i ∈ Finset.range 2, (fun _ : ℕ => (1 : ℝ)) i • (fun _ : ℕ => (0 : Vec3)) i = 0) ∧
    ((∑ i ∈ Finset.range 2, (fun _ : ℕ => (1 : ℝ)) i •
        (integrate_linear_motion 2 1 (fun i => if i = 0 then (0 : Vec3) else ⟨2, 0, 0⟩)
          (fun _ => ⟨1, 0, 0⟩) (fun _ => 0) (fun _ => 1)).2.1 i =
      ∑ i ∈ Finset.range 2, (fun _ : ℕ => (1 : ℝ)) i • (fun _ : ℕ => (⟨1, 0, 0⟩ : Vec3)) i) ∧
    (∑ i ∈ Finset.range 2, (fun _ : ℕ => (1 : ℝ)) i •
        (integrate_linear_motion 2 1 (fun i => if i = 0 then (0 : Vec3) else ⟨2, 0, 0⟩)
          (fun _ => ⟨1, 0, 0⟩) (fun _ => 0) (fun _ => 1)).2.2 i = 0)) :=
  ⟨by norm_num, by simp,
   integrate_linear_motion_momentum 2 1
     (fun i => if i = 0 then (0 : Vec3) else ⟨2, 0, 0⟩)
     (fun _ => ⟨1, 0, 0⟩) (fun _ => 0) (fun _ => 1) (by norm_num) (by simp)⟩

/-- Evaluation helper: a vector whose squared magnitude is a known square has
that magnitude. -/
theorem Vec3.magnitude_eval (v : Vec3) (c : ℝ) (hc : 0 ≤ c)
    (h : v.magnitude2 = c * c) : v.magnitude = c := by
  rw [Vec3.magnitude, h, Real.sqrt_mul_self hc]

/-- Normalization commutes with negation. -/
theorem Vec3.normalize_neg (v : Vec3) : Vec3.normalize (-v) = -Vec3.normalize v := by
  rw [Vec3.normalize, Vec3.normalize, Vec3.magnitude_neg, smul_neg]

/-- Unfolding equation for `contact_sphere_sphere`. -/
theorem contact_sphere_sphere_eq (s1 s2 : Sphere) :
    contact_sphere_sphere s1 s2 =
      if Vec3.magnitude2 (s2.center - s1.center) ≤ (s1.radius + s2.radius) ^ 2 then
        some ⟨s2.center + (-s2.radius) • sphere_contact_normal s1 s2,
              sphere_contact_normal s1 s2,
              Vec3.dist (s2.center + (-s2.radius) • sphere_contact_normal s1 s2)
                (s1.center + s1.radius • sphere_contact_normal s1 s2)⟩
      else none := rfl

/-- Evaluation of the spec's overlapping sphere–sphere example: unit spheres
at the origin and at `(3/2, 0, 0)`. -/
theorem sphere_example_eval :
    contact_sphere_sphere ⟨1, 0⟩ ⟨1, ⟨3/2, 0, 0⟩⟩ =
      some ⟨⟨1/2, 0, 0⟩, ⟨1, 0, 0⟩, 1/2⟩ := by
  have hsub : ((⟨1, ⟨3/2, 0, 0⟩⟩ : Sphere).center - (⟨1, 0⟩ : Sphere).center) =
      (⟨3/2, 0, 0⟩ : Vec3) := by
    ext <;> simp
  have hm2 : Vec3.magnitude2 (⟨3/2, 0, 0⟩ : Vec3) = 9/4 := by
    simp [Vec3.magnitude2, Vec3.dot]
    norm_num
  have hm : Vec3.magnitude (⟨3/2, 0, 0⟩ : Vec3) = 3/2 :=
    Vec3.magnitude_eval _ _ (by norm_num) (by rw [hm2]; norm_num)
  have hnorm : sphere_contact_normal ⟨1, 0⟩ ⟨1, ⟨3/2, 0, 0⟩⟩ = ⟨1, 0, 0⟩ := by
    rw [sphere_contact_normal, hsub, hm2]
    rw [if_neg (by norm_num), Vec3.normalize, hm]
    ext <;> simp <;> norm_num
  rw [contact_sphere_sphere_eq, hsub, hm2]
  rw [if_pos (by norm_num), hnorm]
  have hpoint : (⟨1, ⟨3/2, 0, 0⟩⟩ : Sphere).center +
      (-(⟨1, ⟨3/2, 0, 0⟩⟩ : Sphere).radius) • (⟨1, 0, 0⟩ : Vec3) = ⟨1/2, 0, 0⟩ := by
    ext <;> simp <;> norm_num
  have hpoint2 : (⟨1, 0⟩ : Sphere).center +
      (⟨1, 0⟩ : Sphere).radius • (⟨1, 0, 0⟩ : Vec3) = ⟨1, 0, 0⟩ := by
    ext <;> simp
  rw [hpoint, hpoint2]
  have hdist : Vec3.dist (⟨1/2, 0, 0⟩ : Vec3) ⟨1, 0, 0⟩ = 1/2 := by
    rw [Vec3.dist]
    refine Vec3.magnitude_eval _ _ (by norm_num) ?_
    simp [Vec3.magnitude2, Vec3.dot]
    norm_num
  rw [hdist]

/-- C2: sphere–sphere detection reports a contact exactly when the center
distance is at most the radius sum; the depth is the radius sum minus the
center distance, the normal is the unit vector along the center difference
(canonical axis `(1,0,0)` for coincident centers, without panicking), and the
spec's two concrete examples evaluate as stated. -/
theorem contact_sphere_sphere_spec (s1 s2 : Sphere)
    (h1 : 0 ≤ s1.radius) (h2 : 0 ≤ s2.radius) :
    ((contact_sphere_sphere s1 s2).isSome ↔
      Vec3.magnitude (s2.center - s1.center) ≤ s1.radius + s2.radius) ∧
    (∀ cd, contact_sphere_sphere s1 s2 = some cd →
      cd.penetration_depth =
        s1.radius + s2.radius - Vec3.magnitude (s2.center - s1.center) ∧
      (s1.center ≠ s2.center →
        cd.normal =
          (1 / Vec3.magnitude (s2.center - s1.center)) • (s2.center - s1.center)) ∧
      (s1.center = s2.center → cd.normal = ⟨1, 0, 0⟩)) ∧
    contact_sphere_sphere ⟨1, 0⟩ ⟨1, ⟨3/2, 0, 0⟩⟩ =
      some ⟨⟨1/2, 0, 0⟩, ⟨1, 0, 0⟩, 1/2⟩ ∧
    contact_sphere_sphere ⟨1, 0⟩ ⟨1, ⟨3, 0, 0⟩⟩ = none := by
  have hsum : (0 : ℝ) ≤ s1.radius + s2.radius := add_nonneg h1 h2
  have hiff : Vec3.magnitude (s2.center - s1.center) ≤ s1.radius + s2.radius ↔
      Vec3.magnitude2 (s2.center - s1.center) ≤ (s1.radius + s2.radius) ^ 2 := by
    rw [Vec3.magnitude]
    exact Real.sqrt_le_left hsum
  refine ⟨?_, ?_, sphere_example_eval, ?_⟩
  · rw [contact_sphere_sphere_eq]
    by_cases hble :
        Vec3.magnitude2 (s2.center - s1.center) ≤ (s1.radius + s2.radius) ^ 2
    · rw [if_pos hble]
      simpa using hiff.mpr hble
    · rw [if_neg hble]
      simpa using fun hc => hble (hiff.mp hc)
  · intro cd hcd
    rw [contact_sphere_sphere_eq] at hcd
    by_cases hble :
        Vec3.magnitude2 (s2.center - s1.center) ≤ (s1.radius + s2.radius) ^ 2
    · rw [if_pos hble] at hcd
      have hcd' := (Option.some_inj.mp hcd).symm
      subst hcd'
      have hcenter : s2.center - s1.center = 0 ↔ s1.center = s2.center := by
        rw [sub_eq_zero, eq_comm]
      by_cases h0 : Vec3.magnitude2 (s2.center - s1.center) = 0
      · have hd0 : s2.center - s1.center = 0 := (Vec3.magnitude2_eq_zero_iff _).mp h0
        have hmag0 : Vec3.magnitude (s2.center - s1.center) = 0 :=
          (Vec3.magnitude_eq_zero_iff _).mpr hd0
        have hnv : sphere_contact_normal s1 s2 = ⟨1, 0, 0⟩ := by
          rw [sphere_contact_normal, if_pos h0]
        refine ⟨?_, ?_, fun _ => hnv⟩
        · rw [hmag0, sub_zero, Vec3.dist, hnv]
          have hrw : (s1.center + s1.radius • (⟨1, 0, 0⟩ : Vec3)) -
              (s2.center + (-s2.radius) • (⟨1, 0, 0⟩ : Vec3)) =
              (s1.radius + s2.radius) • (⟨1, 0, 0⟩ : Vec3) := by
            have hc : s1.center = s2.center := hcenter.mp hd0
            rw [hc]
            ext <;> simp <;> ring
          rw [hrw, Vec3.magnitude_smul, abs_of_nonneg hsum]
          have hone : Vec3.magnitude (⟨1, 0, 0⟩ : Vec3) = 1 :=
            Vec3.magnitude_eval _ _ (by norm_num)
              (by simp [Vec3.magnitude2, Vec3.dot])
          rw [hone, mul_one]
        · intro hne
          exact absurd (hcenter.mp hd0) hne
      · have hd0 : s2.center - s1.center ≠ 0 :=
          fun hc => h0 ((Vec3.magnitude2_eq_zero_iff _).mpr hc)
        have hmagne : Vec3.magnitude (s2.center - s1.center) ≠ 0 :=
          fun hc => hd0 ((Vec3.magnitude_eq_zero_iff _).mp hc)
        have hmagpos : 0 < Vec3.magnitude (s2.center - s1.center) :=
          lt_of_le_of_ne (Vec3.magnitude_nonneg _) (Ne.symm hmagne)
        have hnv : sphere_contact_normal s1 s2 =
            (1 / Vec3.magnitude (s2.center - s1.center)) • (s2.center - s1.center) := by
          rw [sphere_contact_normal, if_neg h0, Vec3.normalize]
        refine ⟨?_, fun _ => hnv, fun hc => absurd (hcenter.mpr hc) hd0⟩
        rw [Vec3.dist, hnv]
        have hdiff : (s1.center + s1.radius •
            ((1 / Vec3.magnitude (s2.center - s1.center)) • (s2.center - s1.center))) -
            (s2.center + (-s2.radius) •
              ((1 / Vec3.magnitude (s2.center - s1.center)) • (s2.center - s1.center))) =
            ((s1.radius + s2.radius) / Vec3.magnitude (s2.center - s1.center) - 1) •
              (s2.center - s1.center) := by
          ext <;> simp <;> ring
        rw [hdiff, Vec3.magnitude_smul]
        have hmul : ((s1.radius + s2.radius) / Vec3.magnitude (s2.center - s1.center) - 1) *
            Vec3.magnitude (s2.center - s1.center) =
            s1.radius + s2.radius - Vec3.magnitude (s2.center - s1.center) := by
          field_simp
        have habs : |(s1.radius + s2.radius) / Vec3.magnitude (s2.center - s1.center) - 1| *
            Vec3.magnitude (s2.center - s1.center) =
            |s1.radius + s2.radius - Vec3.magnitude (s2.center - s1.center)| := by
          rw [← hmul, abs_mul, abs_of_pos hmagpos]
        rw [habs, abs_of_nonneg (by linarith [hiff.mpr hble])]
    · rw [if_neg hble] at hcd
      exact absurd hcd (by simp)
  · rw [contact_sphere_sphere_eq]
    rw [if_neg ?_]
    have h9 : Vec3.magnitude2 ((⟨1, ⟨3, 0, 0⟩⟩ : Sphere).center -
        (⟨1, 0⟩ : Sphere).center) = 9 := by
      simp [Vec3.magnitude2, Vec3.dot]
      norm_num
    rw [h9]
    norm_num

/-- C2 witness: the general theorem applied to the two concrete unit
spheres of the spec's example. -/
theorem contact_sphere_sphere_spec_witness :
    (contact_sphere_sphere ⟨1, 0⟩ ⟨1, ⟨3/2, 0, 0⟩⟩).isSome ↔
      Vec3.magnitude ((⟨3/2, 0, 0⟩ : Vec3) - (0 : Vec3)) ≤ 1 + 1 :=
  (contact_sphere_sphere_spec ⟨1, 0⟩ ⟨1, ⟨3/2, 0, 0⟩⟩ (by norm_num) (by norm_num)).1

/-- C8 counterexample: for unit spheres at the origin and `(3/2, 0, 0)` the
returned contact point is `(1/2, 0, 0)` — the second sphere's surface point —
while the midpoint of the two surface points `c1 + r1·n` and `c2 - r2·n`
demanded by the claim is `(3/4, 0, 0)`. -/
theorem contact_sphere_sphere_point_not_midpoint :
    (contact_sphere_sphere ⟨1, 0⟩ ⟨1, ⟨3/2, 0, 0⟩⟩).map ContactData.point =
      some ⟨1/2, 0, 0⟩ ∧
    (1/2 : ℝ) • (((0 : Vec3) + (1 : ℝ) • ⟨1, 0, 0⟩) +
        ((⟨3/2, 0, 0⟩ : Vec3) - (1 : ℝ) • ⟨1, 0, 0⟩)) = ⟨3/4, 0, 0⟩ ∧
    ((⟨1/2, 0, 0⟩ : Vec3) ≠ ⟨3/4, 0, 0⟩) := by
  refine ⟨?_, ?_, ?_⟩
  · rw [sphere_example_eval]
    rfl
  · ext <;> simp <;> norm_num
  · intro h
    have hx := congrArg Vec3.x h
    simp at hx
    norm_num at hx

/-- C8 amended: the contact point returned by `contact_sphere_sphere` is the
second sphere's surface point `c2 - r2·n` along the returned normal (not the
midpoint of the two surface points). -/
theorem contact_sphere_sphere_point_on_second (s1 s2 : Sphere) (cd : ContactData)
    (h : contact_sphere_sphere s1 s2 = some cd) :
    cd.point = s2.center - s2.radius • cd.normal := by
  rw [contact_sphere_sphere_eq] at h
  by_cases hble :
      Vec3.magnitude2 (s2.center - s1.center) ≤ (s1.radius + s2.radius) ^ 2
  · rw [if_pos hble] at h
    have h' := (Option.some_inj.mp h).symm
    subst h'
    rw [sub_eq_add_neg, ← neg_smul]
  · rw [if_neg hble] at h
    exact absurd h (by simp)

/-- C8 witness: the amended point law applied to the spec's overlapping
example. -/
theorem contact_sphere_sphere_point_on_second_witness :
    contact_sphere_sphere ⟨1, 0⟩ ⟨1, ⟨3/2, 0, 0⟩⟩ =
      some ⟨⟨1/2, 0, 0⟩, ⟨1, 0, 0⟩, 1/2⟩ ∧
    (⟨⟨1/2, 0, 0⟩, ⟨1, 0, 0⟩, 1/2⟩ : ContactData).point =
      (⟨1, ⟨3/2, 0, 0⟩⟩ : Sphere).center -
        (⟨1, ⟨3/2, 0, 0⟩⟩ : Sphere).radius •
          (⟨⟨1/2, 0, 0⟩, ⟨1, 0, 0⟩, 1/2⟩ : ContactData).normal :=
  ⟨sphere_example_eval,
   contact_sphere_sphere_point_on_second ⟨1, 0⟩ ⟨1, ⟨3/2, 0, 0⟩⟩ _ sphere_example_eval⟩

/-- Unfolding equation for `contact_sphere_cuboid`. -/
theorem contact_sphere_cuboid_eq (sphere : Sphere) (cuboid : Cuboid) :
    contact_sphere_cuboid sphere cuboid =
      if Vec3.magnitude2 (closest_interior_point cuboid sphere.center - sphere.center) ≤
          sphere.radius ^ 2 then
        some ⟨closest_interior_point cuboid sphere.center,
              Vec3.normalize (closest_interior_point cuboid sphere.center - sphere.center),
              Vec3.magnitude (sphere.radius •
                  Vec3.normalize (closest_interior_point cuboid sphere.center -
                    sphere.center) -
                (closest_interior_point cuboid sphere.center - sphere.center))⟩
      else none := rfl

/-- Normalizing the zero vector yields the zero vector in the exact-real
model (`0 / 0 = 0`); the source divides by a zero magnitude there. -/
theorem Vec3.normalize_zero : Vec3.normalize (0 : Vec3) = 0 := by
  rw [Vec3.normalize]
  exact smul_zero _

/-- C10: when the sphere center lies (weakly) inside the cuboid, the clamp of
`closest_interior_point` is the identity, so the returned closest point is the
sphere center itself; `contact_sphere_cuboid` then still takes its overlap
branch, but the normal it returns is the normalization of the zero vector —
the zero vector, not a unit vector and not the canonical fallback `(1,0,0)`
used by the sphere–sphere test. -/
theorem contact_sphere_cuboid_center_inside (sphere : Sphere) (cuboid : Cuboid)
    (hq : cuboid.rotation.magnitude2 = 1)
    (hx1 : -cuboid.half_size.x ≤
      ((cuboid.rotation.invert).rotate_vector (sphere.center - cuboid.center)).x)
    (hx2 : ((cuboid.rotation.invert).rotate_vector (sphere.center - cuboid.center)).x ≤
      cuboid.half_size.x)
    (hy1 : -cuboid.half_size.y ≤
      ((cuboid.rotation.invert).rotate_vector (sphere.center - cuboid.center)).y)
    (hy2 : ((cuboid.rotation.invert).rotate_vector (sphere.center - cuboid.center)).y ≤
      cuboid.half_size.y)
    (hz1 : -cuboid.half_size.z ≤
      ((cuboid.rotation.invert).rotate_vector (sphere.center - cuboid.center)).z)
    (hz2 : ((cuboid.rotation.invert).rotate_vector (sphere.center - cuboid.center)).z ≤
      cuboid.half_size.z) :
    closest_interior_point cuboid sphere.center = sphere.center ∧
    contact_sphere_cuboid sphere cuboid = some ⟨sphere.center, Vec3.normalize 0, 0⟩ ∧
    Vec3.normalize (0 : Vec3) = 0 ∧
    Vec3.magnitude (Vec3.normalize (0 : Vec3)) ≠ 1 ∧
    Vec3.normalize (0 : Vec3) ≠ ⟨1, 0, 0⟩ := by
  have hmagz : Vec3.magnitude (0 : Vec3) = 0 := (Vec3.magnitude_eq_zero_iff 0).mpr rfl
  have hclosest : closest_interior_point cuboid sphere.center = sphere.center := by
    simp only [closest_interior_point]
    rw [if_neg (not_lt.mpr hx2), if_neg (not_lt.mpr hx1), if_neg (not_lt.mpr hy2),
      if_neg (not_lt.mpr hy1), if_neg (not_lt.mpr hz2), if_neg (not_lt.mpr hz1)]
    rw [Quat.invert_of_unit _ hq, Quat.rotate_vector_conjugate _ hq]
    exact sub_add_cancel _ _
  refine ⟨hclosest, ?_, Vec3.normalize_zero, ?_, ?_⟩
  · rw [contact_sphere_cuboid_eq, hclosest, sub_self]
    rw [if_pos (by
      rw [(Vec3.magnitude2_eq_zero_iff 0).mpr rfl]
      positivity)]
    have hdep : Vec3.magnitude (sphere.radius • Vec3.normalize (0 : Vec3) - 0) = 0 := by
      rw [Vec3.normalize_zero, smul_zero, sub_zero, hmagz]
    rw [hdep]
  · rw [Vec3.normalize_zero, hmagz]
    norm_num
  · rw [Vec3.normalize_zero]
    intro h
    have hx := congrArg Vec3.x h
    simp at hx

/-- The cross product with the zero vector on the right vanishes. -/
theorem Vec3.cross_zero (v : Vec3) : v.cross 0 = 0 := by
  ext <;> simp [Vec3.cross]

/-- The cross product with the zero vector on the left vanishes. -/
theorem Vec3.zero_cross (v : Vec3) : Vec3.cross 0 v = 0 := by
  ext <;> simp [Vec3.cross]

/-- The dot product with the zero vector on the left vanishes. -/
theorem Vec3.zero_dot (v : Vec3) : Vec3.dot 0 v = 0 := by
  simp [Vec3.dot]

/-- Dot distributes over scalar multiples in its first argument. -/
theorem Vec3.smul_dot (c : ℝ) (v w : Vec3) :
    Vec3.dot (c • v) w = c * Vec3.dot v w := by
  simp [Vec3.dot]; ring

/-- Dot distributes over differences in its first argument. -/
theorem Vec3.sub_dot (u v w : Vec3) :
    Vec3.dot (u - v) w = Vec3.dot u w - Vec3.dot v w := by
  simp [Vec3.dot]; ring

/-- The dot square of a vector is its squared magnitude. -/
theorem Vec3.dot_self (v : Vec3) : Vec3.dot v v = Vec3.magnitude2 v := rfl

/-- Rotating the zero vector gives the zero vector. -/
theorem Quat.rotate_vector_zero (q : Quat) : q.rotate_vector 0 = 0 := by
  simp [Quat.rotate_vector, Vec3.cross_zero]

/-- C10 witness: radius-1 sphere at the origin, axis-aligned unit cuboid at
the origin. -/
theorem contact_sphere_cuboid_center_inside_witness :
    closest_interior_point ⟨0, ⟨1, 1, 1⟩, Quat.one⟩ (⟨1, 0⟩ : Sphere).center =
      (⟨1, 0⟩ : Sphere).center ∧
    contact_sphere_cuboid ⟨1, 0⟩ ⟨0, ⟨1, 1, 1⟩, Quat.one⟩ =
      some ⟨(⟨1, 0⟩ : Sphere).center, Vec3.normalize 0, 0⟩ := by
  have hlp : (Quat.invert (⟨0, ⟨1, 1, 1⟩, Quat.one⟩ : Cuboid).rotation).rotate_vector
      ((⟨1, 0⟩ : Sphere).center - (⟨0, ⟨1, 1, 1⟩, Quat.one⟩ : Cuboid).center) = 0 := by
    simp [Quat.rotate_vector_zero]
  have h := contact_sphere_cuboid_center_inside ⟨1, 0⟩ ⟨0, ⟨1, 1, 1⟩, Quat.one⟩
    (by simp [Quat.magnitude2, Quat.one, Vec3.magnitude2, Vec3.dot])
    (by rw [hlp]; norm_num) (by rw [hlp]; norm_num) (by rw [hlp]; norm_num)
    (by rw [hlp]; norm_num) (by rw [hlp]; norm_num) (by rw [hlp]; norm_num)
  exact ⟨h.1, h.2.1⟩

/-- C5: an equal-mass, head-on (contact on the line of centers, normal
parallel to both velocities, no spin), approaching dynamic–dynamic collision
resolved with restitution 1 exchanges the linear velocities of the two
bodies whenever the resolver returns (its inertia inversions succeed). -/
theorem resolve_dynamic_dynamic_velocity_exchanges (rb1 rb2 : DynamicRigidBody)
    (contact : NContact) (vel1 vel2 : ℝ)
    (hm : 0 < rb1.mass) (hmeq : rb2.mass = rb1.mass)
    (hL1 : rb1.state.angular_momentum = 0) (hL2 : rb2.state.angular_momentum = 0)
    (hr1 : (contact.world1 - rb1.state.position).cross contact.normal = 0)
    (hr2 : (contact.world1 - rb2.state.position).cross contact.normal = 0)
    (hn : Vec3.magnitude2 contact.normal = 1)
    (hv1 : rb1.state.velocity = vel1 • contact.normal)
    (hv2 : rb2.state.velocity = vel2 • contact.normal)
    (happroach : vel2 < vel1) :
    ∀ p, resolve_dynamic_dynamic_velocity rb1 rb2 contact = some p →
      p.1.state.velocity = rb2.state.velocity ∧
      p.2.state.velocity = rb1.state.velocity := by
  intro p hp
  have hmne : rb1.mass ≠ 0 := ne_of_gt hm
  simp only [resolve_dynamic_dynamic_velocity, hL1, hL2, Matrix3.mulVec_zero,
    Vec3.zero_cross, hr1, hr2, hv1, hv2, add_zero, zero_add] at hp
  have hsep : Vec3.dot (vel2 • contact.normal - vel1 • contact.normal)
      contact.normal < 0 := by
    rw [Vec3.sub_dot, Vec3.smul_dot, Vec3.smul_dot, Vec3.dot_self, hn]
    nlinarith
  rw [if_pos hsep] at hp
  rcases h1 : try_3x3_inverse
      (world_inverse_inertia rb1.inv_inertia_body rb1.state.orientation) with _ | inv1
  · rw [h1] at hp
    simp at hp
  rcases h2 : try_3x3_inverse
      (world_inverse_inertia rb2.inv_inertia_body rb2.state.orientation) with _ | inv2
  · rw [h1, h2] at hp
    simp at hp
  rw [h1, h2] at hp
  simp only [Option.some_inj] at hp
  subst hp
  have hjr : -(1 + 1) * Vec3.dot (vel2 • contact.normal - vel1 • contact.normal)
        contact.normal / (1 / rb1.mass + 1 / rb2.mass + Vec3.dot 0 contact.normal) /
        rb1.mass = vel1 - vel2 := by
    rw [Vec3.zero_dot, Vec3.sub_dot, Vec3.smul_dot, Vec3.smul_dot, Vec3.dot_self, hn,
      hmeq, add_zero]
    field_simp
    ring
  constructor
  · show vel1 • contact.normal -
      (-(1 + 1) * Vec3.dot (vel2 • contact.normal - vel1 • contact.normal)
          contact.normal / (1 / rb1.mass + 1 / rb2.mass + Vec3.dot 0 contact.normal) /
        rb1.mass) • contact.normal = rb2.state.velocity
    rw [hjr, hv2, ← sub_smul]
    congr 1
    ring
  · have hjr' : -(1 + 1) * Vec3.dot (vel2 • contact.normal - vel1 • contact.normal)
        contact.normal / (1 / rb1.mass + 1 / rb1.mass + Vec3.dot 0 contact.normal) /
        rb1.mass = vel1 - vel2 := by
      rw [Vec3.zero_dot, Vec3.sub_dot, Vec3.smul_dot, Vec3.smul_dot, Vec3.dot_self, hn,
        add_zero]
      field_simp
      ring
    show vel2 • contact.normal +
      (-(1 + 1) * Vec3.dot (vel2 • contact.normal - vel1 • contact.normal)
          contact.normal / (1 / rb1.mass + 1 / rb2.mass + Vec3.dot 0 contact.normal) /
        rb2.mass) • contact.normal = rb1.state.velocity
    rw [hmeq, hjr', hv1, ← add_smul]
    congr 1
    ring

/-- Componentwise evaluation of vector addition on literals. -/
theorem Vec3.mk_add_mk (a b c d e f : ℝ) :
    (⟨a, b, c⟩ + ⟨d, e, f⟩ : Vec3) = ⟨a + d, b + e, c + f⟩ := rfl

/-- Componentwise evaluation of vector subtraction on literals. -/
theorem Vec3.mk_sub_mk (a b c d e f : ℝ) :
    (⟨a, b, c⟩ - ⟨d, e, f⟩ : Vec3) = ⟨a - d, b - e, c - f⟩ := rfl

/-- Componentwise evaluation of vector negation on literals. -/
theorem Vec3.neg_mk (a b c : ℝ) : (-(⟨a, b, c⟩ : Vec3)) = ⟨-a, -b, -c⟩ := rfl

/-- Componentwise evaluation of scalar multiplication on literals. -/
theorem Vec3.smul_mk (k a b c : ℝ) :
    (k • (⟨a, b, c⟩ : Vec3)) = ⟨k * a, k * b, k * c⟩ := rfl

/-- The zero vector as a literal. -/
theorem Vec3.zero_mk : (0 : Vec3) = ⟨0, 0, 0⟩ := rfl

/-- Evaluation of the dot product on literals. -/
theorem Vec3.dot_mk (a b c d e f : ℝ) :
    Vec3.dot ⟨a, b, c⟩ ⟨d, e, f⟩ = a * d + b * e + c * f := rfl

/-- Evaluation of the cross product on literals. -/
theorem Vec3.cross_mk (a b c d e f : ℝ) :
    Vec3.cross ⟨a, b, c⟩ ⟨d, e, f⟩ = ⟨b * f - c * e, c * d - a * f, a * e - b * d⟩ := rfl

/-- Evaluation of the squared magnitude on literals. -/
theorem Vec3.magnitude2_mk (a b c : ℝ) :
    Vec3.magnitude2 (⟨a, b, c⟩ : Vec3) = a * a + b * b + c * c := rfl

/-- Evaluation of the matrix–vector product on literals. -/
theorem Matrix3.mk_mulVec (m11 m12 m13 m21 m22 m23 m31 m32 m33 a b c : ℝ) :
    (Matrix3.mk m11 m12 m13 m21 m22 m23 m31 m32 m33).mulVec ⟨a, b, c⟩ =
      ⟨m11 * a + m12 * b + m13 * c,
       m21 * a + m22 * b + m23 * c,
       m31 * a + m32 * b + m33 * c⟩ := rfl

/-- The identity matrix acts as the identity on vectors. -/
theorem Matrix3.id3_mulVec (v : Vec3) : Matrix3.id3.mulVec v = v := by
  ext <;> simp [Matrix3.id3, Matrix3.mulVec]

/-- The world inverse inertia of the identity tensor at the identity
orientation is the identity. -/
theorem world_inverse_inertia_id :
    world_inverse_inertia Matrix3.id3 Quat.one = Matrix3.id3 := by
  simp only [world_inverse_inertia, Quat.to_rotation_matrix, Quat.conjugate, Quat.one,
    Matrix3.matMul, Matrix3.id3, Vec3.neg_mk, Vec3.zero_mk]
  norm_num

/-- The stop-gap inverse of the identity matrix is the identity. -/
theorem try_3x3_inverse_id : try_3x3_inverse Matrix3.id3 = some Matrix3.id3 := by
  rw [try_3x3_inverse]
  simp only [Matrix3.id3]
  norm_num

/-- C5 witness: unit masses, opposite unit velocities along the x-axis,
contact at the midpoint of the line of centers, identity inertia. The
resolver succeeds and the exchanged velocities follow from the theorem. -/
theorem resolve_dynamic_dynamic_velocity_exchanges_witness :
    ((resolve_dynamic_dynamic_velocity
        ⟨⟨0, ⟨1, 0, 0⟩, Quat.one, 0⟩, 1, Matrix3.id3⟩
        ⟨⟨⟨2, 0, 0⟩, ⟨-1, 0, 0⟩, Quat.one, 0⟩, 1, Matrix3.id3⟩
        ⟨⟨1, 0, 0⟩, ⟨1, 0, 0⟩, ⟨1, 0, 0⟩, 0⟩).isSome = true) ∧
    (∀ p, resolve_dynamic_dynamic_velocity
        ⟨⟨0, ⟨1, 0, 0⟩, Quat.one, 0⟩, 1, Matrix3.id3⟩
        ⟨⟨⟨2, 0, 0⟩, ⟨-1, 0, 0⟩, Quat.one, 0⟩, 1, Matrix3.id3⟩
        ⟨⟨1, 0, 0⟩, ⟨1, 0, 0⟩, ⟨1, 0, 0⟩, 0⟩ = some p →
      p.1.state.velocity =
        (⟨⟨⟨2, 0, 0⟩, ⟨-1, 0, 0⟩, Quat.one, 0⟩, 1, Matrix3.id3⟩ :
          DynamicRigidBody).state.velocity ∧
      p.2.state.velocity =
        (⟨⟨0, ⟨1, 0, 0⟩, Quat.one, 0⟩, 1, Matrix3.id3⟩ :
          DynamicRigidBody).state.velocity) := by
  constructor
  · simp only [resolve_dynamic_dynamic_velocity, world_inverse_inertia_id,
      try_3x3_inverse_id, Matrix3.id3_mulVec, Vec3.zero_mk,
      Vec3.mk_sub_mk, Vec3.dot_mk, Vec3.cross_mk, Vec3.mk_add_mk, Vec3.smul_mk,
      Vec3.neg_mk]
    norm_num
  · exact resolve_dynamic_dynamic_velocity_exchanges _ _ _ 1 (-1)
      (by norm_num) rfl rfl rfl
      (by rw [show ((⟨⟨1, 0, 0⟩, ⟨1, 0, 0⟩, ⟨1, 0, 0⟩, 0⟩ : NContact).world1 -
          (⟨⟨0, ⟨1, 0, 0⟩, Quat.one, 0⟩, 1, Matrix3.id3⟩ :
            DynamicRigidBody).state.position) = ⟨1, 0, 0⟩ from by
            rw [Vec3.zero_mk, Vec3.mk_sub_mk]; norm_num]
          rw [Vec3.cross_mk, Vec3.zero_mk]
          norm_num)
      (by rw [show ((⟨⟨1, 0, 0⟩, ⟨1, 0, 0⟩, ⟨1, 0, 0⟩, 0⟩ : NContact).world1 -
          (⟨⟨⟨2, 0, 0⟩, ⟨-1, 0, 0⟩, Quat.one, 0⟩, 1, Matrix3.id3⟩ :
            DynamicRigidBody).state.position) = ⟨-1, 0, 0⟩ from by
            rw [Vec3.mk_sub_mk]; norm_num]
          rw [Vec3.cross_mk, Vec3.zero_mk]
          norm_num)
      (by rw [Vec3.magnitude2_mk]; norm_num)
      (by rw [Vec3.smul_mk]; norm_num)
      (by rw [Vec3.smul_mk]; norm_num)
      (by norm_num)

/-- Rotating by the identity quaternion is the identity. -/
theorem Quat.rotate_vector_one (v : Vec3) : Quat.one.rotate_vector v = v := by
  simp [Quat.rotate_vector, Quat.one, Vec3.zero_cross]

theorem sat_cuboid_a_center : sat_cuboid_a.center = 0 := rfl

theorem sat_cuboid_a_rotation : sat_cuboid_a.rotation = Quat.one := rfl

theorem sat_cuboid_b_rotation : sat_cuboid_b.rotation = ⟨3/5, ⟨4/5, 0, 0⟩⟩ := rfl

theorem sat_cuboid_a_half : sat_cuboid_a.half_size = ⟨1, 1, 1⟩ := rfl

theorem sat_cuboid_b_center : sat_cuboid_b.center = ⟨1/4, 7/4, 1/4⟩ := rfl

theorem sat_cuboid_b_half : sat_cuboid_b.half_size = ⟨1, 1, 1⟩ := rfl

/-- World axes of the axis-aligned example cuboid. -/
theorem sat_cuboid_a_axes :
    cuboid_axes sat_cuboid_a = (⟨1, 0, 0⟩, ⟨0, 1, 0⟩, ⟨0, 0, 1⟩) := by
  simp only [cuboid_axes, sat_cuboid_a, Quat.rotate_vector_one]

/-- World axes of the rotated example cuboid. -/
theorem sat_cuboid_b_axes :
    cuboid_axes sat_cuboid_b =
      (⟨1, 0, 0⟩, ⟨0, -(7/25), 24/25⟩, ⟨0, -(24/25), -(7/25)⟩) := by
  simp only [cuboid_axes, sat_cuboid_b, Quat.rotate_vector, Vec3.cross_mk,
    Vec3.smul_mk, Vec3.mk_add_mk, Prod.mk.injEq, Vec3.mk.injEq]
  norm_num

/-- The candidate-axis array the code builds for the example pair, in source
order; entry 13 is `b2 × b1 = (-1, 0, 0)`. -/
theorem sat_axes_ab :
    cuboid_cuboid_candidate_axes sat_cuboid_a sat_cuboid_b =
      [⟨1, 0, 0⟩, ⟨0, 1, 0⟩, ⟨0, 0, 1⟩,
       ⟨1, 0, 0⟩, ⟨0, -(7/25), 24/25⟩, ⟨0, -(24/25), -(7/25)⟩,
       ⟨0, 0, 0⟩, ⟨0, -(24/25), -(7/25)⟩, ⟨0, 7/25, -(24/25)⟩,
       ⟨0, 0, -1⟩, ⟨24/25, 0, 0⟩, ⟨-(7/25), 0, 0⟩,
       ⟨0, 1, 0⟩, ⟨-1, 0, 0⟩, ⟨24/25, 0, 0⟩] := by
  rw [cuboid_cuboid_candidate_axes, sat_cuboid_a_axes, sat_cuboid_b_axes]
  simp only [Vec3.cross_mk, List.cons.injEq, Vec3.mk.injEq, and_true]
  norm_num

/-- The candidate-axis array for the swapped argument order; entry 13 is
`a2 × a1 = (-1, 0, 0)` (with the roles of the two boxes exchanged). -/
theorem sat_axes_ba :
    cuboid_cuboid_candidate_axes sat_cuboid_b sat_cuboid_a =
      [⟨1, 0, 0⟩, ⟨0, -(7/25), 24/25⟩, ⟨0, -(24/25), -(7/25)⟩,
       ⟨1, 0, 0⟩, ⟨0, 1, 0⟩, ⟨0, 0, 1⟩,
       ⟨0, 0, 0⟩, ⟨0, 0, 1⟩, ⟨0, -1, 0⟩,
       ⟨0, 24/25, 7/25⟩, ⟨-(24/25), 0, 0⟩, ⟨-(7/25), 0, 0⟩,
       ⟨0, -(7/25), 24/25⟩, ⟨-1, 0, 0⟩, ⟨-(24/25), 0, 0⟩] := by
  rw [cuboid_cuboid_candidate_axes, sat_cuboid_a_axes, sat_cuboid_b_axes]
  simp only [Vec3.cross_mk, List.cons.injEq, Vec3.mk.injEq, and_true]
  norm_num

/-- The spec's axis list for the example pair differs at entry 13: there it
is `a2 × b1 = (7/25, 0, 0)`. -/
theorem claimed_sat_axes_ab :
    claimed_sat_axes sat_cuboid_a sat_cuboid_b =
      [⟨1, 0, 0⟩, ⟨0, 1, 0⟩, ⟨0, 0, 1⟩,
       ⟨1, 0, 0⟩, ⟨0, -(7/25), 24/25⟩, ⟨0, -(24/25), -(7/25)⟩,
       ⟨0, 0, 0⟩, ⟨0, -(24/25), -(7/25)⟩, ⟨0, 7/25, -(24/25)⟩,
       ⟨0, 0, -1⟩, ⟨24/25, 0, 0⟩, ⟨-(7/25), 0, 0⟩,
       ⟨0, 1, 0⟩, ⟨7/25, 0, 0⟩, ⟨24/25, 0, 0⟩] := by
  rw [claimed_sat_axes, sat_cuboid_a_axes, sat_cuboid_b_axes]
  simp only [Vec3.cross_mk, List.cons.injEq, Vec3.mk.injEq, and_true]
  norm_num

/-- Evaluation helper: normalization of a vector with known magnitude. -/
theorem Vec3.normalize_eval (v : Vec3) (c : ℝ) (hc : 0 ≤ c)
    (h : v.magnitude2 = c * c) : v.normalize = (1 / c) • v := by
  rw [Vec3.normalize, Vec3.magnitude_eval v c hc h]

theorem sat_norm_x : Vec3.normalize (⟨1, 0, 0⟩ : Vec3) = ⟨1, 0, 0⟩ := by
  rw [Vec3.normalize_eval _ 1 (by norm_num) (by rw [Vec3.magnitude2_mk]; norm_num),
    Vec3.smul_mk]
  norm_num [Vec3.mk.injEq]

theorem sat_norm_y : Vec3.normalize (⟨0, 1, 0⟩ : Vec3) = ⟨0, 1, 0⟩ := by
  rw [Vec3.normalize_eval _ 1 (by norm_num) (by rw [Vec3.magnitude2_mk]; norm_num),
    Vec3.smul_mk]
  norm_num [Vec3.mk.injEq]

theorem sat_norm_z : Vec3.normalize (⟨0, 0, 1⟩ : Vec3) = ⟨0, 0, 1⟩ := by
  rw [Vec3.normalize_eval _ 1 (by norm_num) (by rw [Vec3.magnitude2_mk]; norm_num),
    Vec3.smul_mk]
  norm_num [Vec3.mk.injEq]

theorem sat_norm_b1 :
    Vec3.normalize (⟨0, -(7/25), 24/25⟩ : Vec3) = ⟨0, -(7/25), 24/25⟩ := by
  rw [Vec3.normalize_eval _ 1 (by norm_num) (by rw [Vec3.magnitude2_mk]; norm_num),
    Vec3.smul_mk]
  norm_num [Vec3.mk.injEq]

theorem sat_norm_b2 :
    Vec3.normalize (⟨0, -(24/25), -(7/25)⟩ : Vec3) = ⟨0, -(24/25), -(7/25)⟩ := by
  rw [Vec3.normalize_eval _ 1 (by norm_num) (by rw [Vec3.magnitude2_mk]; norm_num),
    Vec3.smul_mk]
  norm_num [Vec3.mk.injEq]

theorem sat_norm_b1' :
    Vec3.normalize (⟨0, 7/25, -(24/25)⟩ : Vec3) = ⟨0, 7/25, -(24/25)⟩ := by
  rw [Vec3.normalize_eval _ 1 (by norm_num) (by rw [Vec3.magnitude2_mk]; norm_num),
    Vec3.smul_mk]
  norm_num [Vec3.mk.injEq]

theorem sat_norm_b2' :
    Vec3.normalize (⟨0, 24/25, 7/25⟩ : Vec3) = ⟨0, 24/25, 7/25⟩ := by
  rw [Vec3.normalize_eval _ 1 (by norm_num) (by rw [Vec3.magnitude2_mk]; norm_num),
    Vec3.smul_mk]
  norm_num [Vec3.mk.injEq]

theorem sat_norm_zneg : Vec3.normalize (⟨0, 0, -1⟩ : Vec3) = ⟨0, 0, -1⟩ := by
  rw [Vec3.normalize_eval _ 1 (by norm_num) (by rw [Vec3.magnitude2_mk]; norm_num),
    Vec3.smul_mk]
  norm_num [Vec3.mk.injEq]

theorem sat_norm_yneg : Vec3.normalize (⟨0, -1, 0⟩ : Vec3) = ⟨0, -1, 0⟩ := by
  rw [Vec3.normalize_eval _ 1 (by norm_num) (by rw [Vec3.magnitude2_mk]; norm_num),
    Vec3.smul_mk]
  norm_num [Vec3.mk.injEq]

theorem sat_norm_xneg : Vec3.normalize (⟨-1, 0, 0⟩ : Vec3) = ⟨-1, 0, 0⟩ := by
  rw [Vec3.normalize_eval _ 1 (by norm_num) (by rw [Vec3.magnitude2_mk]; norm_num),
    Vec3.smul_mk]
  norm_num [Vec3.mk.injEq]

theorem sat_norm_sx : Vec3.normalize (⟨24/25, 0, 0⟩ : Vec3) = ⟨1, 0, 0⟩ := by
  rw [Vec3.normalize_eval _ (24/25) (by norm_num)
    (by rw [Vec3.magnitude2_mk]; norm_num), Vec3.smul_mk]
  norm_num [Vec3.mk.injEq]

theorem sat_norm_sxneg : Vec3.normalize (⟨-(24/25), 0, 0⟩ : Vec3) = ⟨-1, 0, 0⟩ := by
  rw [Vec3.normalize_eval _ (24/25) (by norm_num)
    (by rw [Vec3.magnitude2_mk]; norm_num), Vec3.smul_mk]
  norm_num [Vec3.mk.injEq]

theorem sat_norm_tx : Vec3.normalize (⟨-(7/25), 0, 0⟩ : Vec3) = ⟨-1, 0, 0⟩ := by
  rw [Vec3.normalize_eval _ (7/25) (by norm_num)
    (by rw [Vec3.magnitude2_mk]; norm_num), Vec3.smul_mk]
  norm_num [Vec3.mk.injEq]

/-- The filtered, indexed, normalized penetration list for the example pair
in source argument order: the zero axis at index 6 is dropped and the minimum
value `49/100` first occurs at index 1. -/
theorem sat_depths_ab :
    cuboid_cuboid_candidate_depths sat_cuboid_a sat_cuboid_b =
      [(0, 7/4), (1, 49/100), (2, 199/100), (3, 7/4), (4, 199/100), (5, 49/100),
       (7, 49/100), (8, 199/100), (9, 199/100), (10, 7/4), (11, 7/4),
       (12, 49/100), (13, 7/4), (14, 7/4)] := by
  rw [cuboid_cuboid_candidate_depths, sat_axes_ab]
  simp only [List.enum_cons, List.enumFrom_cons, List.enumFrom_nil]
  norm_num only [List.filter_cons, List.filter_nil, Vec3.magnitude2_mk,
    decide_eq_true_eq, if_true, if_false]
  simp only [List.map_cons, List.map_nil, sat_norm_x, sat_norm_y, sat_norm_z,
    sat_norm_b1, sat_norm_b2, sat_norm_b1', sat_norm_zneg, sat_norm_xneg,
    sat_norm_sx, sat_norm_sxneg, sat_norm_tx]
  simp only [cuboid_cuboid_penetration_along_axis, cuboid_projection_onto_axis,
    sat_cuboid_a_axes, sat_cuboid_b_axes, sat_cuboid_a_half, sat_cuboid_b_half,
    sat_cuboid_a_center, sat_cuboid_b_center, Vec3.dot_mk, Vec3.zero_mk,
    Vec3.mk_sub_mk]
  norm_num [List.cons.injEq, Prod.mk.injEq, abs_of_nonneg]

/-- The filtered, indexed, normalized penetration list for the swapped
argument order: the minimum value `49/100` first occurs at index 2. -/
theorem sat_depths_ba :
    cuboid_cuboid_candidate_depths sat_cuboid_b sat_cuboid_a =
      [(0, 7/4), (1, 199/100), (2, 49/100), (3, 7/4), (4, 49/100), (5, 199/100),
       (7, 199/100), (8, 49/100), (9, 49/100), (10, 7/4), (11, 7/4),
       (12, 199/100), (13, 7/4), (14, 7/4)] := by
  rw [cuboid_cuboid_candidate_depths, sat_axes_ba]
  simp only [List.enum_cons, List.enumFrom_cons, List.enumFrom_nil]
  norm_num only [List.filter_cons, List.filter_nil, Vec3.magnitude2_mk,
    decide_eq_true_eq, if_true, if_false]
  simp only [List.map_cons, List.map_nil, sat_norm_x, sat_norm_y, sat_norm_z,
    sat_norm_b1, sat_norm_b2, sat_norm_b2', sat_norm_zneg, sat_norm_yneg,
    sat_norm_xneg, sat_norm_sx, sat_norm_sxneg, sat_norm_tx]
  simp only [cuboid_cuboid_penetration_along_axis, cuboid_projection_onto_axis,
    sat_cuboid_a_axes, sat_cuboid_b_axes, sat_cuboid_a_half, sat_cuboid_b_half,
    sat_cuboid_a_center, sat_cuboid_b_center, Vec3.dot_mk, Vec3.zero_mk,
    Vec3.mk_sub_mk]
  norm_num [List.cons.injEq, Prod.mk.injEq, abs_of_nonneg]

/-- The first minimal element for the source argument order is
`(1, 49/100)` — the face axis `(0,1,0)` of the first box. -/
theorem sat_min_ab :
    minByDepth (cuboid_cuboid_candidate_depths sat_cuboid_a sat_cuboid_b) =
      some (1, 49/100) := by
  rw [sat_depths_ab]
  simp only [minByDepth]
  norm_num [List.foldl]

/-- The first minimal element for the swapped argument order is
`(2, 49/100)` — the face axis `b2` of the rotated box. -/
theorem sat_min_ba :
    minByDepth (cuboid_cuboid_candidate_depths sat_cuboid_b sat_cuboid_a) =
      some (2, 49/100) := by
  rw [sat_depths_ba]
  simp only [minByDepth]
  norm_num [List.foldl]

/-- Rotating `(1,1,1)` by the example rotation `(3/5, 4/5, 0, 0)`. -/
theorem sat_rotate_vertex :
    (⟨3/5, ⟨4/5, 0, 0⟩⟩ : Quat).rotate_vector ⟨1, 1, 1⟩ = ⟨1, -(31/25), 17/25⟩ := by
  simp only [Quat.rotate_vector, Vec3.cross_mk, Vec3.smul_mk, Vec3.mk_add_mk,
    Vec3.mk.injEq]
  norm_num

/-- The full SAT contact for the example pair in source order: face `(0,1,0)`
of the first box, depth `49/100`, vertex of the second box at
`(5/4, 51/100, 93/100)`. -/
theorem sat_contact_ab :
    contact_cuboid_cuboid sat_cuboid_a sat_cuboid_b =
      some ⟨⟨5/4, 51/100, 93/100⟩, ⟨0, 1, 0⟩, 49/100⟩ := by
  rw [contact_cuboid_cuboid, sat_min_ab]
  simp only [sat_axes_ab, sat_cuboid_a_axes, sat_cuboid_b_axes, sat_cuboid_b_half,
    sat_cuboid_b_center, sat_cuboid_a_center, sat_cuboid_b_rotation, List.getD,
    List.get?, Vec3.dot_mk, Vec3.mk_sub_mk, Vec3.zero_mk, Option.getD_some]
  norm_num [sat_rotate_vertex, Vec3.mk_add_mk, Vec3.dot_mk]

/-- The full SAT contact for the example pair in swapped order: face `b2` of
the rotated box, depth `49/100`, vertex of the axis-aligned box at
`(1, 1, 1)`; the normal `(0, -24/25, -7/25)` is not antiparallel to the
normal `(0, 1, 0)` reported by the other order. -/
theorem sat_contact_ba :
    contact_cuboid_cuboid sat_cuboid_b sat_cuboid_a =
      some ⟨⟨1, 1, 1⟩, ⟨0, -(24/25), -(7/25)⟩, 49/100⟩ := by
  rw [contact_cuboid_cuboid, sat_min_ba]
  simp only [sat_axes_ba, sat_cuboid_a_axes, sat_cuboid_b_axes, sat_cuboid_a_half,
    sat_cuboid_a_center, sat_cuboid_b_center, sat_cuboid_a_rotation, List.getD,
    List.get?, Vec3.dot_mk, Vec3.mk_sub_mk, Vec3.zero_mk, Option.getD_some]
  norm_num [Quat.rotate_vector_one, Vec3.mk_add_mk, Vec3.dot_mk]

/-- C3: the candidate-axis array examined by `contact_cuboid_cuboid` is not
the claimed set of the 6 face normals plus the 9 pairwise cross products
`a_k × b_l`: at entry 13 the code builds `b_axes[2] × b_axes[1]` instead of
`a_axes[2] × b_axes[1]`, and for the example pair the direction
`a2 × b1 = (7/25, 0, 0)` is absent from the examined array altogether. -/
theorem cuboid_candidate_axes_slip :
    cuboid_cuboid_candidate_axes sat_cuboid_a sat_cuboid_b ≠
      claimed_sat_axes sat_cuboid_a sat_cuboid_b ∧
    (cuboid_cuboid_candidate_axes sat_cuboid_a sat_cuboid_b).getD 13 0 =
      (cuboid_axes sat_cuboid_b).2.2.cross (cuboid_axes sat_cuboid_b).2.1 ∧
    (claimed_sat_axes sat_cuboid_a sat_cuboid_b).getD 13 0 =
      (cuboid_axes sat_cuboid_a).2.2.cross (cuboid_axes sat_cuboid_b).2.1 ∧
    (cuboid_axes sat_cuboid_a).2.2.cross (cuboid_axes sat_cuboid_b).2.1 ∉
      cuboid_cuboid_candidate_axes sat_cuboid_a sat_cuboid_b := by
  have hval : (cuboid_axes sat_cuboid_a).2.2.cross (cuboid_axes sat_cuboid_b).2.1 =
      ⟨7/25, 0, 0⟩ := by
    rw [sat_cuboid_a_axes, sat_cuboid_b_axes]
    rw [Vec3.cross_mk]
    norm_num [Vec3.mk.injEq]
  have hbval : (cuboid_axes sat_cuboid_b).2.2.cross (cuboid_axes sat_cuboid_b).2.1 =
      ⟨-1, 0, 0⟩ := by
    rw [sat_cuboid_b_axes]
    rw [Vec3.cross_mk]
    norm_num [Vec3.mk.injEq]
  refine ⟨?_, ?_, ?_, ?_⟩
  · rw [sat_axes_ab, claimed_sat_axes_ab]
    intro h
    simp only [List.cons.injEq, Vec3.mk.injEq] at h
    norm_num at h
  · rw [sat_axes_ab, hbval]
    simp [List.getD]
  · rw [claimed_sat_axes_ab, hval]
    simp [List.getD]
  · rw [hval, sat_axes_ab]
    intro h
    simp only [List.mem_cons, List.not_mem_nil, or_false, Vec3.mk.injEq] at h
    norm_num at h

/-- Evaluation of the coincident-centers sphere–sphere case: both unit
spheres at the origin; the canonical axis is returned. -/
theorem sphere_coincident_eval :
    contact_sphere_sphere ⟨1, 0⟩ ⟨1, 0⟩ = some ⟨⟨-1, 0, 0⟩, ⟨1, 0, 0⟩, 2⟩ := by
  have hsub : ((⟨1, 0⟩ : Sphere).center - (⟨1, 0⟩ : Sphere).center) = (0 : Vec3) :=
    sub_self _
  have hm2 : Vec3.magnitude2 (0 : Vec3) = 0 := by
    rw [Vec3.zero_mk, Vec3.magnitude2_mk]
    norm_num
  have hn : sphere_contact_normal ⟨1, 0⟩ ⟨1, 0⟩ = ⟨1, 0, 0⟩ := by
    rw [sphere_contact_normal, hsub, if_pos hm2]
  rw [contact_sphere_sphere_eq, hsub, hm2]
  rw [if_pos (by norm_num), hn]
  have hpoint : (⟨1, 0⟩ : Sphere).center +
      (-(⟨1, 0⟩ : Sphere).radius) • (⟨1, 0, 0⟩ : Vec3) = ⟨-1, 0, 0⟩ := by
    ext <;> simp
  have hpoint2 : (⟨1, 0⟩ : Sphere).center +
      (⟨1, 0⟩ : Sphere).radius • (⟨1, 0, 0⟩ : Vec3) = ⟨1, 0, 0⟩ := by
    ext <;> simp
  rw [hpoint, hpoint2]
  have hdist : Vec3.dist (⟨-1, 0, 0⟩ : Vec3) ⟨1, 0, 0⟩ = 2 := by
    rw [Vec3.dist]
    refine Vec3.magnitude_eval _ _ (by norm_num) ?_
    rw [Vec3.mk_sub_mk, Vec3.magnitude2_mk]
    norm_num
  rw [hdist]

/-- Evaluation of the spec's overlapping example with the arguments swapped. -/
theorem sphere_example_eval_swap :
    contact_sphere_sphere ⟨1, ⟨3/2, 0, 0⟩⟩ ⟨1, 0⟩ =
      some ⟨⟨1, 0, 0⟩, ⟨-1, 0, 0⟩, 1/2⟩ := by
  have hsub : ((⟨1, 0⟩ : Sphere).center - (⟨1, ⟨3/2, 0, 0⟩⟩ : Sphere).center) =
      (⟨-(3/2), 0, 0⟩ : Vec3) := by
    ext <;> simp
  have hm2 : Vec3.magnitude2 (⟨-(3/2), 0, 0⟩ : Vec3) = 9/4 := by
    rw [Vec3.magnitude2_mk]
    norm_num
  have hn : sphere_contact_normal ⟨1, ⟨3/2, 0, 0⟩⟩ ⟨1, 0⟩ = ⟨-1, 0, 0⟩ := by
    rw [sphere_contact_normal, hsub, hm2]
    rw [if_neg (by norm_num)]
    rw [Vec3.normalize_eval _ (3/2) (by norm_num) (by rw [Vec3.magnitude2_mk]; norm_num),
      Vec3.smul_mk]
    norm_num [Vec3.mk.injEq]
  rw [contact_sphere_sphere_eq, hsub, hm2]
  rw [if_pos (by norm_num), hn]
  have hpoint : (⟨1, 0⟩ : Sphere).center +
      (-(⟨1, 0⟩ : Sphere).radius) • (⟨-1, 0, 0⟩ : Vec3) = ⟨1, 0, 0⟩ := by
    ext <;> simp
  have hpoint2 : (⟨1, ⟨3/2, 0, 0⟩⟩ : Sphere).center +
      (⟨1, ⟨3/2, 0, 0⟩⟩ : Sphere).radius • (⟨-1, 0, 0⟩ : Vec3) = ⟨1/2, 0, 0⟩ := by
    ext <;> simp <;> norm_num
  rw [hpoint, hpoint2]
  have hdist : Vec3.dist (⟨1, 0, 0⟩ : Vec3) ⟨1/2, 0, 0⟩ = 1/2 := by
    rw [Vec3.dist]
    refine Vec3.magnitude_eval _ _ (by norm_num) ?_
    rw [Vec3.mk_sub_mk, Vec3.magnitude2_mk]
    norm_num
  rw [hdist]

/-- C6 counterexample: for coincident unit spheres both argument orders
return the same canonical normal `(1,0,0)` (not sign-flipped), and for the
example cuboid pair the two argument orders return contacts with equal depth
`49/100` but normals `(0,1,0)` and `(0,-24/25,-7/25)` that are not
antiparallel. -/
theorem detection_swap_symmetry_cex :
    (contact_sphere_sphere ⟨1, 0⟩ ⟨1, 0⟩).map ContactData.normal =
      some ⟨1, 0, 0⟩ ∧
    (contact_sphere_sphere ⟨1, 0⟩ ⟨1, 0⟩).map ContactData.normal ≠
      some (-(⟨1, 0, 0⟩ : Vec3)) ∧
    contact_cuboid_cuboid sat_cuboid_a sat_cuboid_b =
      some ⟨⟨5/4, 51/100, 93/100⟩, ⟨0, 1, 0⟩, 49/100⟩ ∧
    contact_cuboid_cuboid sat_cuboid_b sat_cuboid_a =
      some ⟨⟨1, 1, 1⟩, ⟨0, -(24/25), -(7/25)⟩, 49/100⟩ ∧
    (⟨0, -(24/25), -(7/25)⟩ : Vec3) ≠ -(⟨0, 1, 0⟩ : Vec3) := by
  refine ⟨?_, ?_, sat_contact_ab, sat_contact_ba, ?_⟩
  · rw [sphere_coincident_eval]
    rfl
  · rw [sphere_coincident_eval]
    simp only [Option.map_some, Vec3.neg_mk, Option.some_inj, Vec3.mk.injEq]
    norm_num
  · rw [Vec3.neg_mk]
    intro h
    have hy := congrArg Vec3.y h
    simp at hy
    norm_num at hy

/-- C6 amended: sphere–sphere detection with swapped arguments always agrees
on the overlap verdict and the penetration depth; the normals are exactly
sign-flipped whenever the centers differ, while for coincident centers both
orders return the identical canonical normal `(1,0,0)`. Cuboid–cuboid
detection with swapped arguments is not normal-antiparallel in general: for
the example pair both orders report a contact of equal depth whose normals
are not sign-flips of each other. -/
theorem detection_swap_amended :
    (∀ s1 s2 : Sphere,
      ((contact_sphere_sphere s1 s2).isSome ↔ (contact_sphere_sphere s2 s1).isSome) ∧
      (∀ cd1 cd2, contact_sphere_sphere s1 s2 = some cd1 →
        contact_sphere_sphere s2 s1 = some cd2 →
        cd2.penetration_depth = cd1.penetration_depth ∧
        (s1.center ≠ s2.center → cd2.normal = -cd1.normal) ∧
        (s1.center = s2.center → cd1.normal = ⟨1, 0, 0⟩ ∧ cd2.normal = ⟨1, 0, 0⟩))) ∧
    ((contact_cuboid_cuboid sat_cuboid_a sat_cuboid_b).map
        ContactData.penetration_depth =
      (contact_cuboid_cuboid sat_cuboid_b sat_cuboid_a).map
        ContactData.penetration_depth) ∧
    ((contact_cuboid_cuboid sat_cuboid_b sat_cuboid_a).map ContactData.normal ≠
      (contact_cuboid_cuboid sat_cuboid_a sat_cuboid_b).map (fun cd => -cd.normal)) := by
  refine ⟨?_, ?_, ?_⟩
  · intro s1 s2
    have hm2 : Vec3.magnitude2 (s1.center - s2.center) =
        Vec3.magnitude2 (s2.center - s1.center) := by
      rw [show s1.center - s2.center = -(s2.center - s1.center) from (neg_sub _ _).symm,
        Vec3.magnitude2_neg]
    have hcond : (Vec3.magnitude2 (s1.center - s2.center) ≤
        (s2.radius + s1.radius) ^ 2) ↔
        (Vec3.magnitude2 (s2.center - s1.center) ≤ (s1.radius + s2.radius) ^ 2) := by
      rw [hm2, add_comm s2.radius]
    constructor
    · rw [contact_sphere_sphere_eq, contact_sphere_sphere_eq]
      by_cases hb : Vec3.magnitude2 (s2.center - s1.center) ≤
          (s1.radius + s2.radius) ^ 2
      · rw [if_pos hb, if_pos (hcond.mpr hb)]
        simp
      · rw [if_neg hb, if_neg (fun hc => hb (hcond.mp hc))]
    · intro cd1 cd2 h1 h2
      rw [contact_sphere_sphere_eq] at h1 h2
      by_cases hb : Vec3.magnitude2 (s2.center - s1.center) ≤
          (s1.radius + s2.radius) ^ 2
      · rw [if_pos hb] at h1
        rw [if_pos (hcond.mpr hb)] at h2
        have h1' := (Option.some_inj.mp h1).symm
        have h2' := (Option.some_inj.mp h2).symm
        subst h1'
        subst h2'
        by_cases h0 : Vec3.magnitude2 (s2.center - s1.center) = 0
        · have hc : s1.center = s2.center := by
            have := (Vec3.magnitude2_eq_zero_iff _).mp h0
            rw [sub_eq_zero] at this
            exact this.symm
          have hn1 : sphere_contact_normal s1 s2 = ⟨1, 0, 0⟩ := by
            rw [sphere_contact_normal, if_pos h0]
          have hn2 : sphere_contact_normal s2 s1 = ⟨1, 0, 0⟩ := by
            rw [sphere_contact_normal, if_pos (hm2.trans h0)]
          refine ⟨?_, fun hne => absurd hc hne, fun _ => ⟨hn1, hn2⟩⟩
          rw [Vec3.dist, Vec3.dist, hn1, hn2]
          have harg : (s2.center + s2.radius • (⟨1, 0, 0⟩ : Vec3)) -
              (s1.center + (-s1.radius) • (⟨1, 0, 0⟩ : Vec3)) =
              (s1.center + s1.radius • (⟨1, 0, 0⟩ : Vec3)) -
              (s2.center + (-s2.radius) • (⟨1, 0, 0⟩ : Vec3)) := by
            rw [hc]
            ext <;> simp <;> ring
          rw [harg]
        · have hd0 : s2.center - s1.center ≠ 0 :=
            fun hcx => h0 ((Vec3.magnitude2_eq_zero_iff _).mpr hcx)
          have hn2 : sphere_contact_normal s2 s1 = -(sphere_contact_normal s1 s2) := by
            rw [sphere_contact_normal, sphere_contact_normal, if_neg h0,
              if_neg (fun hcx => h0 (hm2 ▸ hcx))]
            rw [show s1.center - s2.center = -(s2.center - s1.center) from
              (neg_sub _ _).symm, Vec3.normalize_neg]
          refine ⟨?_, fun _ => hn2, fun hcx =>
            absurd (sub_eq_zero.mpr hcx.symm) hd0⟩
          rw [Vec3.dist, Vec3.dist, hn2]
          have harg : (s2.center + s2.radius • (-(sphere_contact_normal s1 s2))) -
              (s1.center + (-s1.radius) • (-(sphere_contact_normal s1 s2))) =
              -((s1.center + s1.radius • sphere_contact_normal s1 s2) -
                (s2.center + (-s2.radius) • sphere_contact_normal s1 s2)) := by
            ext <;> simp <;> ring
          rw [harg, Vec3.magnitude_neg]
      · rw [if_neg hb] at h1
        exact absurd h1 (by simp)
  · rw [sat_contact_ab, sat_contact_ba]
    rfl
  · rw [sat_contact_ab, sat_contact_ba]
    simp only [Option.map_some', Option.some_inj, Vec3.neg_mk, Vec3.mk.injEq]
    norm_num

/-- C6 witness: the amended swap law applied to the spec's overlapping
example pair of unit spheres. -/
theorem detection_swap_amended_witness :
    (⟨⟨1, 0, 0⟩, ⟨-1, 0, 0⟩, 1/2⟩ : ContactData).penetration_depth =
      (⟨⟨1/2, 0, 0⟩, ⟨1, 0, 0⟩, 1/2⟩ : ContactData).penetration_depth ∧
    (⟨⟨1, 0, 0⟩, ⟨-1, 0, 0⟩, 1/2⟩ : ContactData).normal =
      -(⟨⟨1/2, 0, 0⟩, ⟨1, 0, 0⟩, 1/2⟩ : ContactData).normal := by
  have h := (detection_swap_amended.1 ⟨1, 0⟩ ⟨1, ⟨3/2, 0, 0⟩⟩).2 _ _
    sphere_example_eval sphere_example_eval_swap
  refine ⟨h.1, h.2.1 ?_⟩
  intro hc
  have hx := congrArg Vec3.x hc
  simp at hx
  norm_num at hx
